import Mathlib

/-!
Shallow embedding of the Billetter booking store
(`src/billetter/src/services/InMemoryBilletterService.js`).

JavaScript `Map` objects keyed by numeric ids are modelled as association
lists in insertion order (`Map.set` on a present key updates in place,
otherwise appends); JavaScript `Set` objects of seat ids are modelled as
duplicate-free lists in insertion order.  The `seatTimeouts` map is
modelled by the list of seat ids that currently carry a live reservation
timer; real time is not modelled, a timer firing is an explicit step
(`Op.timerFire`) enabled only while the timer is live.
-/

namespace Billetter

inductive SeatStatus
  | FREE
  | RESERVED
  | SOLD
deriving DecidableEq

inductive BookingStatus
  | booked
  | payment_initiated
  | confirmed
  | cancelled
deriving DecidableEq

structure Event where
  id : Nat
  title : String
  external : Bool
deriving DecidableEq

structure Seat where
  id : Nat
  row : Nat
  number : Nat
  status : SeatStatus
  price : String
  event_id : Nat
deriving DecidableEq

structure Booking where
  id : Nat
  event_id : Nat
  status : BookingStatus
deriving DecidableEq

/-- A JavaScript `Map` with `Nat` keys, in insertion order. -/
abbrev NMap (α : Type) := List (Nat × α)

def mapGet {α : Type} : NMap α → Nat → Option α
  | [], _ => none
  | p :: rest, k => if p.1 = k then some p.2 else mapGet rest k

def mapHas {α : Type} (m : NMap α) (k : Nat) : Bool :=
  (mapGet m k).isSome

/-- `Map.set`: update in place when the key is present, append otherwise. -/
def mapSet {α : Type} (m : NMap α) (k : Nat) (v : α) : NMap α :=
  if mapHas m k then m.map (fun p => if p.1 = k then (k, v) else p)
  else m ++ [(k, v)]

/-- `Set.add`. -/
def setAdd (s : List Nat) (x : Nat) : List Nat :=
  if x ∈ s then s else s ++ [x]

/-- `Set.delete`. -/
def setDelete (s : List Nat) (x : Nat) : List Nat :=
  s.filter (fun y => y != x)

/-- The whole mutable state of `InMemoryBilletterService`. -/
structure Store where
  events : NMap Event
  bookings : NMap Booking
  seats : NMap Seat
  bookingSeats : NMap (List Nat)
  eventSeats : NMap (List Nat)
  nextEventId : Nat
  nextBookingId : Nat
  nextSeatId : Nat
  seatTimeouts : List Nat
deriving DecidableEq

/-- The state built by the constructor. -/
def Store.init : Store :=
  { events := [], bookings := [], seats := [], bookingSeats := [],
    eventSeats := [], nextEventId := 1, nextBookingId := 1, nextSeatId := 1,
    seatTimeouts := [] }

instance {ε α : Type} [DecidableEq ε] [DecidableEq α] :
    DecidableEq (Except ε α) := fun a b =>
  match a, b with
  | .ok x, .ok y =>
    if h : x = y then .isTrue (by rw [h]) else .isFalse (by simp [h])
  | .error x, .error y =>
    if h : x = y then .isTrue (by rw [h]) else .isFalse (by simp [h])
  | .ok _, .error _ => .isFalse (by simp)
  | .error _, .ok _ => .isFalse (by simp)

/-- The distinct errors thrown by the service. -/
inductive Err
  | EventNotFound
  | BookingNotFound
  | SeatNotFound
  | FailedAddSeat
  | SeatWrongEvent
  | FailedRelease
  | InvalidBookingStatus
  | InvalidPagination
deriving DecidableEq

/-- Errors the spec classifies as NotFound. -/
def Err.isNotFound : Err → Bool
  | .EventNotFound => true
  | .BookingNotFound => true
  | .SeatNotFound => true
  | _ => false

/-- Errors the spec classifies as Conflict (wrong state of a seat or booking). -/
def Err.isConflict : Err → Bool
  | .FailedAddSeat => true
  | .SeatWrongEvent => true
  | .FailedRelease => true
  | .InvalidBookingStatus => true
  | _ => false

/-- Errors the spec classifies as InvalidArgument. -/
def Err.isInvalidArgument : Err → Bool
  | .InvalidPagination => true
  | _ => false

def strContainsAux (hay nee : List Char) : Bool :=
  nee.isPrefixOf hay ||
    match hay with
    | [] => false
    | _ :: rest => strContainsAux rest nee

/-- JavaScript `String.prototype.includes`. -/
def strContains (hay nee : String) : Bool :=
  strContainsAux hay.data nee.data

/-- ASCII lowercase of one character (the only case `toLowerCase` meets in
the "stadium"/"100k" naming convention). -/
def charLower (c : Char) : Char :=
  if 65 ≤ c.toNat ∧ c.toNat ≤ 90 then Char.ofNat (c.toNat + 32) else c

/-- `title.toLowerCase()`. -/
def strLower (s : String) : String :=
  ⟨s.data.map charLower⟩

/-- The "large event" naming convention in `createEvent`. -/
def isLargeEventTitle (title : String) : Bool :=
  strContains (strLower title) "stadium" || strContains (strLower title) "100k"

/-- The seat-generation loop of `createEvent`: rows `1..maxRows`, numbers
`1..seatsPerRow`, consecutive fresh seat ids starting at `startId`, every
seat `FREE` at price `"10.00"`. -/
def genSeats (eid startId maxRows seatsPerRow : Nat) : List (Nat × Seat) :=
  (List.range maxRows).flatMap (fun r =>
    (List.range seatsPerRow).map (fun n =>
      let sid := startId + r * seatsPerRow + n
      (sid, { id := sid, row := r + 1, number := n + 1, status := .FREE,
              price := "10.00", event_id := eid })))

def createEvent (s : Store) (title : String) (external : Bool) :
    Store × Nat :=
  let id := s.nextEventId
  let maxRows := if isLargeEventTitle title then 1000 else 10
  let seatsPerRow := 100
  let newSeats := genSeats id s.nextSeatId maxRows seatsPerRow
  ({ s with
      events := mapSet s.events id { id := id, title := title, external := external },
      nextEventId := id + 1,
      seats := newSeats.foldl (fun m p => mapSet m p.1 p.2) s.seats,
      nextSeatId := s.nextSeatId + maxRows * seatsPerRow,
      eventSeats := mapSet s.eventSeats id (newSeats.map Prod.fst) },
   id)

def createBooking (s : Store) (event_id : Nat) : Except Err (Store × Nat) :=
  if mapHas s.events event_id then
    let id := s.nextBookingId
    .ok ({ s with
            bookings := mapSet s.bookings id
              { id := id, event_id := event_id, status := .booked },
            bookingSeats := mapSet s.bookingSeats id [],
            nextBookingId := id + 1 },
         id)
  else .error .EventNotFound

structure SeatView where
  id : Nat
  row : Nat
  number : Nat
  status : SeatStatus
  price : String
deriving DecidableEq

def seatView (st : Seat) : SeatView :=
  { id := st.id, row := st.row, number := st.number, status := st.status,
    price := st.price }

def getSeats (s : Store) (event_id page pageSize : Nat) :
    Except Err (List (Option SeatView)) :=
  if mapHas s.events event_id then
    if page < 1 ∨ pageSize < 1 ∨ pageSize > 20 then .error .InvalidPagination
    else
      let eventSeatIds := (mapGet s.eventSeats event_id).getD []
      let startIndex := (page - 1) * pageSize
      if eventSeatIds.length ≤ startIndex then .ok []
      else .ok (((eventSeatIds.drop startIndex).take pageSize).map
        (fun sid => (mapGet s.seats sid).map seatView))
  else .error .EventNotFound

/-- `this.bookingSeats.get(booking_id).add(seat_id)`; on a known booking the
entry is always present (JavaScript would crash otherwise). -/
def bsAdd (m : NMap (List Nat)) (bid sid : Nat) : NMap (List Nat) :=
  match mapGet m bid with
  | some l => mapSet m bid (setAdd l sid)
  | none => m

def selectSeat (s : Store) (booking_id seat_id : Nat) :
    Except Err (Store × String) :=
  match mapGet s.bookings booking_id with
  | none => .error .BookingNotFound
  | some booking =>
    match mapGet s.seats seat_id with
    | none => .error .SeatNotFound
    | some seat =>
      if booking.status = .cancelled ∨ booking.status = .confirmed then
        .error .FailedAddSeat
      else if seat.event_id ≠ booking.event_id then .error .SeatWrongEvent
      else if seat.status ≠ .FREE then .error .FailedAddSeat
      else
        .ok ({ s with
                seats := mapSet s.seats seat_id { seat with status := .RESERVED },
                bookingSeats := bsAdd s.bookingSeats booking_id seat_id,
                seatTimeouts := setAdd s.seatTimeouts seat_id },
             "Seat successfully added to booking")

/-- The `for (const seatSet of this.bookingSeats.values())` loop in
`releaseSeatInternal` with its `break`: delete the seat from the first held
set containing it. -/
def removeFromFirstHolder : NMap (List Nat) → Nat → NMap (List Nat)
  | [], _ => []
  | (k, l) :: rest, sid =>
    if sid ∈ l then (k, setDelete l sid) :: rest
    else (k, l) :: removeFromFirstHolder rest sid

def releaseSeatInternal (s : Store) (seat_id : Nat) : Store :=
  match mapGet s.seats seat_id with
  | some seat =>
    if seat.status = .RESERVED then
      { s with
          seats := mapSet s.seats seat_id { seat with status := .FREE },
          bookingSeats := removeFromFirstHolder s.bookingSeats seat_id,
          seatTimeouts := setDelete s.seatTimeouts seat_id }
    else s
  | none => s

def releaseSeat (s : Store) (seat_id : Nat) : Except Err (Store × String) :=
  match mapGet s.seats seat_id with
  | none => .error .SeatNotFound
  | some seat =>
    if seat.status ≠ .RESERVED then .error .FailedRelease
    else .ok (releaseSeatInternal s seat_id, "Seat successfully released")

def initiatePayment (s : Store) (booking_id : Nat) :
    Except Err (Store × String) :=
  match mapGet s.bookings booking_id with
  | none => .error .BookingNotFound
  | some booking =>
    if booking.status ≠ .booked then .error .InvalidBookingStatus
    else
      let s1 := { s with
        bookings := mapSet s.bookings booking_id
          { booking with status := .payment_initiated } }
      let bookingSeatsSet := (mapGet s1.bookingSeats booking_id).getD []
      .ok ({ s1 with seatTimeouts := bookingSeatsSet.foldl setDelete s1.seatTimeouts },
           "http://localhost:3000/payment?booking_id=" ++ toString booking_id)

def cancelBooking (s : Store) (booking_id : Nat) : Except Err (Store × String) :=
  match mapGet s.bookings booking_id with
  | none => .error .BookingNotFound
  | some booking =>
    if booking.status = .confirmed then
      .ok (s, "Booking successfully cancelled")
    else
      let s1 := { s with
        bookings := mapSet s.bookings booking_id
          { booking with status := .cancelled } }
      let bookingSeatsSet := (mapGet s1.bookingSeats booking_id).getD []
      .ok (bookingSeatsSet.foldl releaseSeatInternal s1,
           "Booking successfully cancelled")

/-- The `seat.status = 'SOLD'` assignment in `confirmPayment`'s loop. -/
def markSold (s : Store) (sid : Nat) : Store :=
  match mapGet s.seats sid with
  | some seat =>
    { s with seats := mapSet s.seats sid { seat with status := .SOLD } }
  | none => s

def confirmPayment (s : Store) (booking_id : Nat) : Store × String :=
  match mapGet s.bookings booking_id with
  | none => (s, "OK")
  | some booking =>
    if booking.status ≠ .payment_initiated then (s, "OK")
    else
      let s1 := { s with
        bookings := mapSet s.bookings booking_id
          { booking with status := .confirmed } }
      let bookingSeatsSet := (mapGet s1.bookingSeats booking_id).getD []
      (bookingSeatsSet.foldl markSold s1, "OK")

def failPayment (s : Store) (booking_id : Nat) : Store × String :=
  match mapGet s.bookings booking_id with
  | none => (s, "OK")
  | some booking =>
    if booking.status = .confirmed then (s, "OK")
    else if booking.status = .cancelled then (s, "OK")
    else
      let s1 := { s with
        bookings := mapSet s.bookings booking_id
          { booking with status := .cancelled } }
      let bookingSeatsSet := (mapGet s1.bookingSeats booking_id).getD []
      (bookingSeatsSet.foldl releaseSeatInternal s1, "OK")

/-- One store operation (timer expiry included). -/
inductive Op
  | createEvent (title : String) (external : Bool)
  | createBooking (event_id : Nat)
  | selectSeat (booking_id seat_id : Nat)
  | releaseSeat (seat_id : Nat)
  | initiatePayment (booking_id : Nat)
  | cancelBooking (booking_id : Nat)
  | confirmPayment (booking_id : Nat)
  | failPayment (booking_id : Nat)
  | timerFire (seat_id : Nat)

/-- The state after an operation; a thrown error leaves the state unchanged
(every throw happens before any mutation), and a reservation timer fires
only while it is live. -/
def applyOp (s : Store) : Op → Store
  | .createEvent t e => (createEvent s t e).1
  | .createBooking eid =>
    match createBooking s eid with
    | .ok (s', _) => s'
    | .error _ => s
  | .selectSeat b sid =>
    match selectSeat s b sid with
    | .ok (s', _) => s'
    | .error _ => s
  | .releaseSeat sid =>
    match releaseSeat s sid with
    | .ok (s', _) => s'
    | .error _ => s
  | .initiatePayment b =>
    match initiatePayment s b with
    | .ok (s', _) => s'
    | .error _ => s
  | .cancelBooking b =>
    match cancelBooking s b with
    | .ok (s', _) => s'
    | .error _ => s
  | .confirmPayment b => (confirmPayment s b).1
  | .failPayment b => (failPayment s b).1
  | .timerFire sid =>
    if sid ∈ s.seatTimeouts then releaseSeatInternal s sid else s

/-- States reachable from the freshly constructed service. -/
inductive Reachable : Store → Prop
  | init : Reachable Store.init
  | step (s : Store) (op : Op) : Reachable s → Reachable (applyOp s op)

/-- The bookings whose held-seat set contains `sid`, in map order. -/
def holdersIn (bs : NMap (List Nat)) (sid : Nat) : List Nat :=
  (bs.filter (fun q => decide (sid ∈ q.2))).map Prod.fst

def holders (s : Store) (sid : Nat) : List Nat :=
  holdersIn s.bookingSeats sid

instance decidableOptionBAll {α : Type} (p : α → Prop) [DecidablePred p] :
    (o : Option α) → Decidable (∀ a ∈ o, p a)
  | none => .isTrue (by simp)
  | some x =>
    if h : p x then .isTrue (by simpa using h) else .isFalse (by simpa using h)

section MapLemmas

variable {α : Type}

theorem mapGet_nil (k : Nat) : mapGet ([] : NMap α) k = none := rfl

theorem mapGet_cons (p : Nat × α) (m : NMap α) (k : Nat) :
    mapGet (p :: m) k = if p.1 = k then some p.2 else mapGet m k := rfl

theorem mapGet_eq_none_iff {m : NMap α} {k : Nat} :
    mapGet m k = none ↔ k ∉ m.map Prod.fst := by
  induction m with
  | nil => simp [mapGet]
  | cons p rest ih =>
    rw [mapGet_cons]
    by_cases h : p.1 = k
    · simp [h]
    · rw [if_neg h, ih]
      simp [List.mem_cons, Ne.symm h]

theorem mapHas_iff {m : NMap α} {k : Nat} :
    mapHas m k = true ↔ k ∈ m.map Prod.fst := by
  rw [mapHas, Option.isSome_iff_ne_none, ne_eq, mapGet_eq_none_iff, not_not]

theorem mapGet_mem {m : NMap α} {k : Nat} {v : α} (h : mapGet m k = some v) :
    (k, v) ∈ m := by
  induction m with
  | nil => simp [mapGet] at h
  | cons p rest ih =>
    obtain ⟨p1, p2⟩ := p
    rw [mapGet_cons] at h
    by_cases hk : p1 = k
    · rw [if_pos hk] at h
      injection h with hv
      subst hk hv
      exact List.mem_cons_self _ _
    · rw [if_neg hk] at h
      exact List.mem_cons_of_mem _ (ih h)

theorem mapGet_isSome_of_mem {m : NMap α} {p : Nat × α} (h : p ∈ m) :
    mapHas m p.1 = true :=
  mapHas_iff.mpr (List.mem_map_of_mem Prod.fst h)

theorem mapGet_of_mem_nodup {m : NMap α} {p : Nat × α} (h : p ∈ m)
    (hnd : (m.map Prod.fst).Nodup) : mapGet m p.1 = some p.2 := by
  induction m with
  | nil => simp at h
  | cons q rest ih =>
    simp only [List.map_cons, List.nodup_cons] at hnd
    rcases List.mem_cons.1 h with rfl | h'
    · simp [mapGet_cons]
    · rw [mapGet_cons, if_neg, ih h' hnd.2]
      intro hq
      exact hnd.1 (hq ▸ List.mem_map_of_mem Prod.fst h')

theorem mapGet_append_left {m l : NMap α} {k : Nat} {v : α}
    (h : mapGet m k = some v) : mapGet (m ++ l) k = some v := by
  induction m with
  | nil => simp [mapGet] at h
  | cons p rest ih =>
    rw [mapGet_cons] at h
    rw [List.cons_append, mapGet_cons]
    by_cases hk : p.1 = k
    · rwa [if_pos hk] at h ⊢
    · rw [if_neg hk] at h ⊢
      exact ih h

theorem mapGet_append_right {m l : NMap α} {k : Nat}
    (h : mapGet m k = none) : mapGet (m ++ l) k = mapGet l k := by
  induction m with
  | nil => simp
  | cons p rest ih =>
    rw [mapGet_cons] at h
    rw [List.cons_append, mapGet_cons]
    by_cases hk : p.1 = k
    · rw [if_pos hk] at h; cases h
    · rw [if_neg hk] at h
      rw [if_neg hk]
      exact ih h

theorem mapGet_map_update (m : NMap α) (k : Nat) (v : α)
    (h : mapHas m k = true) :
    mapGet (m.map (fun p => if p.1 = k then (k, v) else p)) k = some v := by
  induction m with
  | nil => cases h
  | cons p rest ih =>
    rw [List.map_cons]
    by_cases hk : p.1 = k
    · rw [if_pos hk, mapGet_cons, if_pos rfl]
    · rw [if_neg hk, mapGet_cons, if_neg hk]
      apply ih
      rw [mapHas, mapGet_cons, if_neg hk] at h
      exact h

theorem mapGet_map_update_ne (m : NMap α) {k k' : Nat} (v : α) (h : k' ≠ k) :
    mapGet (m.map (fun p => if p.1 = k then (k, v) else p)) k' = mapGet m k' := by
  induction m with
  | nil => rfl
  | cons p rest ih =>
    rw [List.map_cons]
    by_cases hk : p.1 = k
    · rw [if_pos hk, mapGet_cons, mapGet_cons,
        if_neg (fun he : k = k' => h he.symm),
        if_neg (fun he : p.1 = k' => h (hk ▸ he).symm)]
      exact ih
    · rw [if_neg hk, mapGet_cons, mapGet_cons]
      by_cases hk' : p.1 = k'
      · rw [if_pos hk', if_pos hk']
      · rw [if_neg hk', if_neg hk']
        exact ih

theorem mapGet_mapSet_self (m : NMap α) (k : Nat) (v : α) :
    mapGet (mapSet m k v) k = some v := by
  rw [mapSet]
  by_cases h : mapHas m k
  · rw [if_pos h]
    exact mapGet_map_update m k v h
  · rw [if_neg h]
    rw [mapHas, Option.isSome_iff_ne_none, not_not] at h
    rw [mapGet_append_right h, mapGet_cons, if_pos rfl]

theorem mapGet_mapSet_ne (m : NMap α) {k k' : Nat} (v : α) (h : k' ≠ k) :
    mapGet (mapSet m k v) k' = mapGet m k' := by
  rw [mapSet]
  by_cases hh : mapHas m k
  · rw [if_pos hh]
    exact mapGet_map_update_ne m v h
  · rw [if_neg hh]
    rcases hq : mapGet m k' with _ | w
    · rw [mapGet_append_right hq, mapGet_cons,
        if_neg (fun he : k = k' => h he.symm)]
      rfl
    · rw [mapGet_append_left hq]

theorem mapSet_keys (m : NMap α) (k : Nat) (v : α) :
    (mapSet m k v).map Prod.fst =
      if mapHas m k then m.map Prod.fst else m.map Prod.fst ++ [k] := by
  rw [mapSet]
  by_cases h : mapHas m k
  · rw [if_pos h, if_pos h, List.map_map]
    apply List.map_congr_left
    intro p _
    by_cases hk : p.1 = k <;> simp [hk]
  · simp [if_neg h]

theorem mem_mapSet {m : NMap α} {k : Nat} {v : α} {p : Nat × α}
    (h : p ∈ mapSet m k v) : p ∈ m ∨ p = (k, v) := by
  rw [mapSet] at h
  by_cases hh : mapHas m k
  · rw [if_pos hh] at h
    rcases List.mem_map.1 h with ⟨q, hq, hqe⟩
    by_cases hk : q.1 = k
    · right; rw [if_pos hk] at hqe; exact hqe.symm
    · left; rw [if_neg hk] at hqe; exact hqe ▸ hq
  · rw [if_neg hh] at h
    rcases List.mem_append.1 h with h' | h'
    · exact Or.inl h'
    · right; simpa using h'

theorem map_update_id {m : NMap α} {k : Nat} (v : α) (h : ∀ q ∈ m, q.1 ≠ k) :
    m.map (fun q => if q.1 = k then (k, v) else q) = m := by
  induction m with
  | nil => rfl
  | cons p rest ih =>
    simp only [List.map_cons, if_neg (h p (by simp)), List.cons.injEq, true_and]
    exact ih (fun q hq => h q (by simp [hq]))

theorem mapSet_self {m : NMap α} {k : Nat} {v : α}
    (h : mapGet m k = some v) (hnd : (m.map Prod.fst).Nodup) :
    mapSet m k v = m := by
  rw [mapSet, if_pos (by rw [mapHas, h]; rfl)]
  induction m with
  | nil => rfl
  | cons p rest ih =>
    obtain ⟨p1, p2⟩ := p
    simp only [List.map_cons, List.nodup_cons] at hnd
    rw [mapGet_cons] at h
    by_cases hk : p1 = k
    · rw [if_pos hk] at h
      injection h with hv
      subst hk hv
      rw [List.map_cons, if_pos rfl, List.cons.injEq]
      refine ⟨rfl, ?_⟩
      refine map_update_id p2 (fun q hq hqk => ?_)
      exact hnd.1 (by rw [← hqk]; exact List.mem_map_of_mem Prod.fst hq)
    · rw [if_neg hk] at h
      rw [List.map_cons, if_neg hk, List.cons.injEq]
      exact ⟨rfl, ih h hnd.2⟩

end MapLemmas

section SetLemmas

theorem mem_setAdd {s : List Nat} {x y : Nat} :
    x ∈ setAdd s y ↔ x ∈ s ∨ x = y := by
  rw [setAdd]
  by_cases h : y ∈ s
  · rw [if_pos h]
    constructor
    · exact Or.inl
    · rintro (hx | rfl) <;> assumption
  · rw [if_neg h]
    simp

theorem self_mem_setAdd (s : List Nat) (y : Nat) : y ∈ setAdd s y :=
  mem_setAdd.2 (Or.inr rfl)

theorem setAdd_nodup {s : List Nat} (h : s.Nodup) (y : Nat) :
    (setAdd s y).Nodup := by
  rw [setAdd]
  by_cases hy : y ∈ s
  · rwa [if_pos hy]
  · rw [if_neg hy]
    simpa [List.nodup_append] using ⟨h, hy⟩

theorem mem_setDelete {s : List Nat} {x y : Nat} :
    x ∈ setDelete s y ↔ x ∈ s ∧ x ≠ y := by
  simp [setDelete, List.mem_filter]

theorem setDelete_nodup {s : List Nat} (h : s.Nodup) (y : Nat) :
    (setDelete s y).Nodup :=
  h.filter _

theorem setDelete_of_not_mem {s : List Nat} {y : Nat} (h : y ∉ s) :
    setDelete s y = s := by
  rw [setDelete, List.filter_eq_self]
  intro a ha
  simp only [bne_iff_ne, ne_eq]
  exact fun hh => h (hh ▸ ha)

theorem foldl_setDelete_eq_filter (L t : List Nat) :
    L.foldl setDelete t = t.filter (fun x => decide (x ∉ L)) := by
  induction L generalizing t with
  | nil => simp
  | cons a L' ih =>
    rw [List.foldl_cons, ih, setDelete, List.filter_filter]
    apply List.filter_congr
    intro x _
    simp only [List.mem_cons, Bool.and_comm]
    by_cases h1 : x = a <;> by_cases h2 : x ∈ L' <;> simp [h1, h2]

theorem mem_foldl_setDelete {L t : List Nat} {x : Nat} :
    x ∈ L.foldl setDelete t ↔ x ∈ t ∧ x ∉ L := by
  rw [foldl_setDelete_eq_filter]
  simp [List.mem_filter]

theorem foldl_setDelete_nodup {L t : List Nat} (h : t.Nodup) :
    (L.foldl setDelete t).Nodup := by
  rw [foldl_setDelete_eq_filter]
  exact h.filter _

end SetLemmas

section HoldersLemmas

theorem holdersIn_nil (sid : Nat) : holdersIn [] sid = [] := rfl

theorem holdersIn_cons (q : Nat × List Nat) (bs : NMap (List Nat)) (sid : Nat) :
    holdersIn (q :: bs) sid =
      if sid ∈ q.2 then q.1 :: holdersIn bs sid else holdersIn bs sid := by
  rw [holdersIn, List.filter_cons]
  by_cases h : sid ∈ q.2 <;> simp [h, holdersIn]

theorem holdersIn_append (bs1 bs2 : NMap (List Nat)) (sid : Nat) :
    holdersIn (bs1 ++ bs2) sid = holdersIn bs1 sid ++ holdersIn bs2 sid := by
  rw [holdersIn, List.filter_append, List.map_append]
  rfl

theorem mem_holdersIn {bs : NMap (List Nat)} {sid b : Nat} :
    b ∈ holdersIn bs sid ↔ ∃ q ∈ bs, q.1 = b ∧ sid ∈ q.2 := by
  rw [holdersIn]
  simp only [List.mem_map, List.mem_filter, decide_eq_true_eq]
  constructor
  · rintro ⟨q, ⟨hq, hmem⟩, rfl⟩
    exact ⟨q, hq, rfl, hmem⟩
  · rintro ⟨q, hq, rfl, hmem⟩
    exact ⟨q, ⟨hq, hmem⟩, rfl⟩

theorem holdersIn_eq_nil_iff {bs : NMap (List Nat)} {sid : Nat} :
    holdersIn bs sid = [] ↔ ∀ q ∈ bs, sid ∉ q.2 := by
  rw [holdersIn]
  simp only [List.map_eq_nil_iff, List.filter_eq_nil_iff, decide_eq_true_eq]

/-- Replacing the value at key `k` by one holding `sid` just the same leaves
the holders of `sid` unchanged. -/
theorem holdersIn_map_update {bs : NMap (List Nat)} {k sid : Nat} {v : List Nat}
    (hiff : ∀ q ∈ bs, q.1 = k → (sid ∈ v ↔ sid ∈ q.2)) :
    holdersIn (bs.map (fun q => if q.1 = k then (k, v) else q)) sid =
      holdersIn bs sid := by
  induction bs with
  | nil => rfl
  | cons q rest ih =>
    rw [List.map_cons, holdersIn_cons, holdersIn_cons]
    have ihr := ih (fun q hq => hiff q (List.mem_cons_of_mem _ hq))
    by_cases hk : q.1 = k
    · have hv : sid ∈ v ↔ sid ∈ q.2 := hiff q (List.mem_cons_self _ _) hk
      rw [if_pos hk]
      by_cases hmem : sid ∈ q.2
      · rw [if_pos (show sid ∈ (Prod.mk k v).2 from hv.2 hmem), if_pos hmem,
          ihr, hk]
      · rw [if_neg (show sid ∉ (Prod.mk k v).2 from fun hc => hmem (hv.1 hc)),
          if_neg hmem, ihr]
    · rw [if_neg hk]
      by_cases hmem : sid ∈ q.2
      · rw [if_pos hmem, if_pos hmem, ihr]
      · rw [if_neg hmem, if_neg hmem, ihr]

theorem holdersIn_mapSet {bs : NMap (List Nat)} {k sid : Nat} {v l : List Nat}
    (hget : mapGet bs k = some l) (hiff : ∀ l', mapGet bs k = some l' →
      (sid ∈ v ↔ sid ∈ l')) (hnd : (bs.map Prod.fst).Nodup) :
    holdersIn (mapSet bs k v) sid = holdersIn bs sid := by
  rw [mapSet, if_pos (by rw [mapHas, hget]; rfl)]
  apply holdersIn_map_update
  intro q hq hqk
  have : mapGet bs q.1 = some q.2 := mapGet_of_mem_nodup hq hnd
  rw [hqk, hget] at this
  injection this with hl
  exact hl ▸ hiff l hget

/-- Adding `sid` to the held set of `k` when no booking holds it yet makes
`k` its unique holder. -/
theorem holdersIn_mapSet_setAdd {bs : NMap (List Nat)} {k sid : Nat}
    {l : List Nat} (hget : mapGet bs k = some l)
    (hnone : holdersIn bs sid = []) (hnd : (bs.map Prod.fst).Nodup) :
    holdersIn (mapSet bs k (setAdd l sid)) sid = [k] := by
  rw [mapSet, if_pos (by rw [mapHas, hget]; rfl)]
  rw [holdersIn_eq_nil_iff] at hnone
  induction bs with
  | nil => simp [mapGet] at hget
  | cons q rest ih =>
    simp only [List.map_cons, List.nodup_cons] at hnd
    rw [mapGet_cons] at hget
    rw [List.map_cons, holdersIn_cons]
    by_cases hk : q.1 = k
    · rw [if_pos hk] at hget ⊢
      injection hget with hl
      subst hl
      simp only
      rw [if_pos (self_mem_setAdd q.2 sid), List.cons.injEq]
      refine ⟨rfl, ?_⟩
      rw [map_update_id]
      · rw [holdersIn_eq_nil_iff]
        exact fun q' hq' => hnone q' (List.mem_cons_of_mem _ hq')
      · intro q' hq' hq'k
        exact hnd.1 (by rw [hk, ← hq'k]; exact List.mem_map_of_mem Prod.fst hq')
    · rw [if_neg hk] at hget ⊢
      rw [if_neg (hnone q (List.mem_cons_self _ _))]
      exact ih hget (fun q' hq' => hnone q' (List.mem_cons_of_mem _ hq')) hnd.2

end HoldersLemmas

section RemoveLemmas

theorem rffh_keys (bs : NMap (List Nat)) (sid : Nat) :
    (removeFromFirstHolder bs sid).map Prod.fst = bs.map Prod.fst := by
  induction bs with
  | nil => rfl
  | cons q rest ih =>
    obtain ⟨k, l⟩ := q
    rw [removeFromFirstHolder]
    by_cases h : sid ∈ l
    · rw [if_pos h]
      rfl
    · rw [if_neg h, List.map_cons, List.map_cons, ih]

theorem rffh_of_not_held {bs : NMap (List Nat)} {sid : Nat}
    (h : ∀ q ∈ bs, sid ∉ q.2) : removeFromFirstHolder bs sid = bs := by
  induction bs with
  | nil => rfl
  | cons q rest ih =>
    obtain ⟨k, l⟩ := q
    rw [removeFromFirstHolder, if_neg (h (k, l) (List.mem_cons_self _ _))]
    rw [ih (fun q hq => h q (List.mem_cons_of_mem _ hq))]

theorem mem_rffh {bs : NMap (List Nat)} {sid : Nat} {q' : Nat × List Nat}
    (h : q' ∈ removeFromFirstHolder bs sid) :
    ∃ q ∈ bs, q'.1 = q.1 ∧ (q'.2 = q.2 ∨ q'.2 = setDelete q.2 sid) := by
  induction bs with
  | nil => cases h
  | cons q rest ih =>
    obtain ⟨k, l⟩ := q
    rw [removeFromFirstHolder] at h
    by_cases hl : sid ∈ l
    · rw [if_pos hl] at h
      rcases List.mem_cons.1 h with rfl | h'
      · exact ⟨(k, l), List.mem_cons_self _ _, rfl, Or.inr rfl⟩
      · exact ⟨q', List.mem_cons_of_mem _ h', rfl, Or.inl rfl⟩
    · rw [if_neg hl] at h
      rcases List.mem_cons.1 h with rfl | h'
      · exact ⟨(k, l), List.mem_cons_self _ _, rfl, Or.inl rfl⟩
      · obtain ⟨q, hq, h1, h2⟩ := ih h'
        exact ⟨q, List.mem_cons_of_mem _ hq, h1, h2⟩

theorem holdersIn_rffh_self (bs : NMap (List Nat)) (sid : Nat) :
    holdersIn (removeFromFirstHolder bs sid) sid = (holdersIn bs sid).tail := by
  induction bs with
  | nil => rfl
  | cons q rest ih =>
    obtain ⟨k, l⟩ := q
    rw [removeFromFirstHolder, holdersIn_cons]
    by_cases hl : sid ∈ l
    · rw [if_pos hl, if_pos hl, holdersIn_cons,
        if_neg (fun hc => ((mem_setDelete.1 hc).2 rfl)), List.tail_cons]
    · rw [if_neg hl, if_neg hl, holdersIn_cons, if_neg hl, ih]

theorem holdersIn_rffh_ne (bs : NMap (List Nat)) {sid sid' : Nat}
    (h : sid' ≠ sid) :
    holdersIn (removeFromFirstHolder bs sid) sid' = holdersIn bs sid' := by
  induction bs with
  | nil => rfl
  | cons q rest ih =>
    obtain ⟨k, l⟩ := q
    rw [removeFromFirstHolder, holdersIn_cons]
    by_cases hl : sid ∈ l
    · rw [if_pos hl, holdersIn_cons]
      have : sid' ∈ setDelete l sid ↔ sid' ∈ l := by
        rw [mem_setDelete]
        exact ⟨fun hc => hc.1, fun hc => ⟨hc, h⟩⟩
      by_cases hm : sid' ∈ l
      · rw [if_pos hm, if_pos (this.2 hm)]
      · rw [if_neg hm, if_neg (fun hc => hm (this.1 hc))]
    · rw [if_neg hl, holdersIn_cons, ih]

theorem mapGet_rffh_first {bs : NMap (List Nat)} {sid b : Nat} {lb : List Nat}
    {hs : List Nat} (hh : holdersIn bs sid = b :: hs)
    (hget : mapGet bs b = some lb) (hnd : (bs.map Prod.fst).Nodup) :
    mapGet (removeFromFirstHolder bs sid) b = some (setDelete lb sid) := by
  induction bs with
  | nil => cases hh
  | cons q rest ih =>
    obtain ⟨k, l⟩ := q
    simp only [List.map_cons, List.nodup_cons] at hnd
    rw [mapGet_cons] at hget
    rw [removeFromFirstHolder]
    rw [holdersIn_cons] at hh
    by_cases hl : sid ∈ l
    · rw [if_pos hl] at hh ⊢
      injection hh with hb _
      subst hb
      rw [if_pos rfl] at hget
      injection hget with hlb
      rw [mapGet_cons, if_pos rfl, ← hlb]
    · rw [if_neg hl] at hh ⊢
      rw [mapGet_cons]
      by_cases hk : k = b
      · -- the head is `b`'s entry but does not hold `sid`; yet `b` heads the
        -- holders list, so some later entry with key `b` holds `sid`,
        -- contradicting nodup keys.
        exfalso
        subst hk
        have : k ∈ holdersIn rest sid := hh ▸ List.mem_cons_self _ _
        obtain ⟨q, hq, hq1, _⟩ := mem_holdersIn.1 this
        exact hnd.1 (hq1 ▸ List.mem_map_of_mem Prod.fst hq)
      · rw [if_neg hk] at hget ⊢
        exact ih hh hget hnd.2

end RemoveLemmas

section FreshLemmas

theorem mapHas_eq_false_iff {α : Type} {m : NMap α} {k : Nat} :
    mapHas m k = false ↔ k ∉ m.map Prod.fst := by
  rw [← mapGet_eq_none_iff, mapHas]
  cases mapGet m k <;> simp

theorem foldl_mapSet_fresh {α : Type} {l m : NMap α}
    (hfresh : ∀ p ∈ l, mapHas m p.1 = false)
    (hnd : (l.map Prod.fst).Nodup) :
    l.foldl (fun acc p => mapSet acc p.1 p.2) m = m ++ l := by
  induction l generalizing m with
  | nil => simp
  | cons x xs ih =>
    simp only [List.map_cons, List.nodup_cons] at hnd
    rw [List.foldl_cons]
    have hx : mapSet m x.1 x.2 = m ++ [x] := by
      rw [mapSet, if_neg (by rw [hfresh x (List.mem_cons_self _ _)]; exact
        Bool.false_ne_true)]
    have h1 : ∀ p ∈ xs, mapHas (m ++ [x]) p.1 = false := by
      intro p hp
      rw [mapHas_eq_false_iff, List.map_append, List.mem_append]
      rintro (hc | hc)
      · exact absurd hc (mapHas_eq_false_iff.1
          (hfresh p (List.mem_cons_of_mem _ hp)))
      · simp only [List.map_cons, List.map_nil, List.mem_singleton] at hc
        exact hnd.1 (hc ▸ List.mem_map_of_mem Prod.fst hp)
    rw [hx, ih h1 hnd.2, List.append_assoc, List.singleton_append]

end FreshLemmas

section GenSeatsLemmas

theorem genSeats_keys (eid start rows per : Nat) :
    (genSeats eid start rows per).map Prod.fst = List.range' start (rows * per) := by
  induction rows with
  | zero => simp [genSeats]
  | succ r ih =>
    rw [genSeats, List.range_succ, List.flatMap_append, List.map_append]
    rw [genSeats] at ih
    rw [ih, List.flatMap_singleton, List.map_map]
    have : ((fun p : Nat × Seat => p.1) ∘ fun n =>
        (start + r * per + n,
          ({ id := start + r * per + n, row := r + 1, number := n + 1,
             status := .FREE, price := "10.00", event_id := eid } : Seat))) =
        (fun n => (start + r * per) + n) := rfl
    rw [this, ← List.range'_eq_map_range, Nat.succ_mul,
      Nat.add_comm (r * per) per]
    exact List.range'_append_1 start (r * per) per

theorem genSeats_mem {eid start rows per : Nat} {p : Nat × Seat}
    (h : p ∈ genSeats eid start rows per) :
    p.2.id = p.1 ∧ p.2.status = .FREE ∧ p.2.price = "10.00" ∧
      p.2.event_id = eid := by
  rw [genSeats] at h
  obtain ⟨r, _, h⟩ := List.mem_flatMap.1 h
  obtain ⟨n, _, rfl⟩ := List.mem_map.1 h
  exact ⟨rfl, rfl, rfl, rfl⟩

theorem genSeats_keys_ge {eid start rows per : Nat} {p : Nat × Seat}
    (h : p ∈ genSeats eid start rows per) : start ≤ p.1 := by
  have hk := List.mem_map_of_mem Prod.fst h
  rw [genSeats_keys] at hk
  exact (List.mem_range'_1.1 hk).1

theorem genSeats_keys_lt {eid start rows per : Nat} {p : Nat × Seat}
    (h : p ∈ genSeats eid start rows per) : p.1 < start + rows * per := by
  have hk := List.mem_map_of_mem Prod.fst h
  rw [genSeats_keys] at hk
  exact (List.mem_range'_1.1 hk).2

theorem genSeats_keys_nodup (eid start rows per : Nat) :
    ((genSeats eid start rows per).map Prod.fst).Nodup := by
  rw [genSeats_keys]
  exact List.nodup_range' start (rows * per)

/-- `createEvent` appends its freshly generated seats to the seat map. -/
theorem createEvent_seats {s : Store} (t : String) (e : Bool)
    (hlt : ∀ p ∈ s.seats, p.1 < s.nextSeatId) :
    (createEvent s t e).1.seats =
      s.seats ++ genSeats s.nextEventId s.nextSeatId
        (if isLargeEventTitle t then 1000 else 10) 100 := by
  show (genSeats s.nextEventId s.nextSeatId _ 100).foldl
      (fun m p => mapSet m p.1 p.2) s.seats = _
  apply foldl_mapSet_fresh
  · intro p hp
    rw [mapHas_eq_false_iff]
    intro hc
    obtain ⟨q, hq, hq1⟩ := List.mem_map.1 hc
    have := hlt q hq
    have := genSeats_keys_ge hp
    omega
  · exact genSeats_keys_nodup _ _ _ _

end GenSeatsLemmas

/-- Well-formedness of a store state: key discipline of the maps, the
held-set/ownership invariant, and the reservation-timer bookkeeping.  All
fields are established for `Store.init` and preserved by every operation. -/
structure WF (s : Store) : Prop where
  seats_lt : ∀ p ∈ s.seats, p.1 < s.nextSeatId
  seats_nodup : (s.seats.map Prod.fst).Nodup
  seat_key : ∀ p ∈ s.seats, (p : Nat × Seat).2.id = p.1
  bookings_lt : ∀ p ∈ s.bookings, p.1 < s.nextBookingId
  bookings_nodup : (s.bookings.map Prod.fst).Nodup
  bs_lt : ∀ q ∈ s.bookingSeats, q.1 < s.nextBookingId
  bs_nodup : (s.bookingSeats.map Prod.fst).Nodup
  booking_bs : ∀ p ∈ s.bookings, mapHas s.bookingSeats p.1 = true
  held_nodup : ∀ q ∈ s.bookingSeats, (q : Nat × List Nat).2.Nodup
  held_booking : ∀ q ∈ s.bookingSeats, ∀ sid ∈ q.2,
    mapHas s.bookings q.1 = true
  held_seat : ∀ q ∈ s.bookingSeats, ∀ sid ∈ q.2, mapHas s.seats sid = true
  held_status : ∀ q ∈ s.bookingSeats, ∀ sid ∈ q.2,
    ∀ st ∈ mapGet s.seats sid, st.status ≠ .FREE
  held_event : ∀ q ∈ s.bookingSeats, ∀ sid ∈ q.2,
    ∀ st ∈ mapGet s.seats sid, ∀ bk ∈ mapGet s.bookings q.1,
      st.event_id = bk.event_id
  sold_confirmed : ∀ q ∈ s.bookingSeats, ∀ sid ∈ q.2,
    ∀ st ∈ mapGet s.seats sid, st.status = .SOLD →
      ∀ bk ∈ mapGet s.bookings q.1, bk.status = .confirmed
  not_free_held : ∀ p ∈ s.seats, (p : Nat × Seat).2.status ≠ .FREE →
    (holdersIn s.bookingSeats p.1).length = 1
  timer_seat : ∀ sid ∈ s.seatTimeouts, mapHas s.seats sid = true
  timer_not_free : ∀ sid ∈ s.seatTimeouts,
    ∀ st ∈ mapGet s.seats sid, st.status ≠ .FREE
  reserved_booked_timer : ∀ p ∈ s.seats,
    (p : Nat × Seat).2.status = .RESERVED → ∀ q ∈ s.bookingSeats, p.1 ∈ q.2 →
      ∀ bk ∈ mapGet s.bookings q.1, bk.status = .booked →
        p.1 ∈ s.seatTimeouts
  eventSeats_nodup : ∀ q ∈ s.eventSeats, (q : Nat × List Nat).2.Nodup

theorem WF_init : WF Store.init := by
  constructor <;> first
    | exact List.nodup_nil
    | (intro p hp; cases hp)

theorem length_eq_one_mem {l : List Nat} {b : Nat} (h : l.length = 1)
    (hb : b ∈ l) : l = [b] := by
  obtain ⟨a, rfl⟩ := List.length_eq_one.1 h
  rw [List.mem_singleton] at hb
  rw [hb]

/-- In a well-formed store a `FREE` seat is held by no booking. -/
theorem WF.free_not_held {s : Store} (wf : WF s) {p : Nat × Seat}
    (hp : p ∈ s.seats) (hfree : p.2.status = .FREE) :
    holdersIn s.bookingSeats p.1 = [] := by
  rw [holdersIn_eq_nil_iff]
  intro q hq hmem
  have hget : mapGet s.seats p.1 = some p.2 :=
    mapGet_of_mem_nodup hp wf.seats_nodup
  exact wf.held_status q hq p.1 hmem p.2 hget hfree

/-- In a well-formed store a held seat's unique holder is the booking whose
set contains it. -/
theorem WF.unique_holder {s : Store} (wf : WF s) {q : Nat × List Nat}
    (hq : q ∈ s.bookingSeats) {sid : Nat} (hmem : sid ∈ q.2) :
    holdersIn s.bookingSeats sid = [q.1] := by
  have hhas := wf.held_seat q hq sid hmem
  rw [mapHas] at hhas
  obtain ⟨st, hst⟩ := Option.isSome_iff_exists.1 hhas
  have hpmem : (sid, st) ∈ s.seats := mapGet_mem hst
  have hnf : st.status ≠ .FREE := wf.held_status q hq sid hmem st hst
  have hlen := wf.not_free_held (sid, st) hpmem hnf
  exact length_eq_one_mem hlen (mem_holdersIn.2 ⟨q, hq, rfl, hmem⟩)

theorem mapGet_append_of_has {α : Type} {m l : NMap α} {k : Nat}
    (h : mapHas m k = true) : mapGet (m ++ l) k = mapGet m k := by
  rw [mapHas] at h
  obtain ⟨v, hv⟩ := Option.isSome_iff_exists.1 h
  rw [mapGet_append_left hv, hv]

theorem mapHas_append_left {α : Type} {m l : NMap α} {k : Nat}
    (h : mapHas m k = true) : mapHas (m ++ l) k = true := by
  rw [mapHas, mapGet_append_of_has h, ← mapHas]
  exact h

theorem WF_createEvent {s : Store} (wf : WF s) (t : String) (e : Bool) :
    WF (createEvent s t e).1 := by
  have hseats := createEvent_seats t e wf.seats_lt
  have hsplit : ∀ p ∈ (createEvent s t e).1.seats,
      p ∈ s.seats ∨ p ∈ genSeats s.nextEventId s.nextSeatId
        (if isLargeEventTitle t then 1000 else 10) 100 := by
    intro p hp
    rw [hseats] at hp
    exact List.mem_append.1 hp
  have hold : ∀ {sid : Nat}, mapHas s.seats sid = true →
      mapGet (createEvent s t e).1.seats sid = mapGet s.seats sid := by
    intro sid h
    rw [hseats]
    exact mapGet_append_of_has h
  refine ⟨?_, ?_, ?_, wf.bookings_lt, wf.bookings_nodup, wf.bs_lt,
    wf.bs_nodup, ?_, wf.held_nodup, wf.held_booking, ?_, ?_, ?_, ?_, ?_,
    ?_, ?_, ?_, ?_⟩
  · intro p hp
    rcases hsplit p hp with h | h
    · have := wf.seats_lt p h
      show p.1 < s.nextSeatId + _ * 100
      omega
    · exact genSeats_keys_lt h
  · rw [hseats, List.map_append, List.nodup_append]
    refine ⟨wf.seats_nodup, genSeats_keys_nodup _ _ _ _, ?_⟩
    intro a ha hb
    obtain ⟨p, hp, rfl⟩ := List.mem_map.1 ha
    obtain ⟨q, hq, hqa⟩ := List.mem_map.1 hb
    have := wf.seats_lt p hp
    have := genSeats_keys_ge hq
    omega
  · intro p hp
    rcases hsplit p hp with h | h
    · exact wf.seat_key p h
    · exact (genSeats_mem h).1
  · intro p hp
    exact wf.booking_bs p hp
  · intro q hq sid hmem
    rw [hseats]
    exact mapHas_append_left (wf.held_seat q hq sid hmem)
  · intro q hq sid hmem st hst
    rw [hold (wf.held_seat q hq sid hmem)] at hst
    exact wf.held_status q hq sid hmem st hst
  · intro q hq sid hmem st hst bk hbk
    rw [hold (wf.held_seat q hq sid hmem)] at hst
    exact wf.held_event q hq sid hmem st hst bk hbk
  · intro q hq sid hmem st hst hsold bk hbk
    rw [hold (wf.held_seat q hq sid hmem)] at hst
    exact wf.sold_confirmed q hq sid hmem st hst hsold bk hbk
  · intro p hp hnf
    rcases hsplit p hp with h | h
    · exact wf.not_free_held p h hnf
    · exact absurd (genSeats_mem h).2.1 hnf
  · intro sid hsid
    rw [hseats]
    exact mapHas_append_left (wf.timer_seat sid hsid)
  · intro sid hsid st hst
    rw [hold (wf.timer_seat sid hsid)] at hst
    exact wf.timer_not_free sid hsid st hst
  · intro p hp hres q hq hmem bk hbk hbooked
    rcases hsplit p hp with h | h
    · exact wf.reserved_booked_timer p h hres q hq hmem bk hbk hbooked
    · rw [(genSeats_mem h).2.1] at hres
      cases hres
  · intro q hq
    rcases mem_mapSet hq with h | h
    · exact wf.eventSeats_nodup q h
    · rw [h]
      have := genSeats_keys_nodup s.nextEventId s.nextSeatId
        (if isLargeEventTitle t then 1000 else 10) 100
      rw [genSeats_keys] at this ⊢
      exact this

theorem mapSet_fresh_append {α : Type} {m : NMap α} {k : Nat} (v : α)
    (h : mapHas m k = false) : mapSet m k v = m ++ [(k, v)] := by
  rw [mapSet, if_neg (by rw [h]; exact Bool.false_ne_true)]

theorem mapSet_keys_of_has {α : Type} {m : NMap α} {k : Nat} (v : α)
    (h : mapHas m k = true) :
    (mapSet m k v).map Prod.fst = m.map Prod.fst := by
  rw [mapSet_keys, if_pos h]

theorem mapHas_mapSet_of_has {α : Type} {m : NMap α} {k k' : Nat} (v : α)
    (h : mapHas m k' = true) : mapHas (mapSet m k v) k' = true := by
  by_cases hk : k' = k
  · subst hk
    rw [mapHas, mapGet_mapSet_self]
    rfl
  · rw [mapHas, mapGet_mapSet_ne m v hk, ← mapHas]
    exact h

theorem mapHas_append_self {α : Type} {m : NMap α} {k : Nat} (v : α)
    (h : mapGet m k = none) : mapHas (m ++ [(k, v)]) k = true := by
  rw [mapHas, mapGet_append_right h, mapGet_cons, if_pos rfl]
  rfl

theorem nodup_keys_snoc {α : Type} {m : NMap α} {k : Nat} (v : α)
    (hnd : (m.map Prod.fst).Nodup) (hfresh : k ∉ m.map Prod.fst) :
    ((m ++ [(k, v)]).map Prod.fst).Nodup := by
  rw [List.map_append, List.nodup_append]
  exact ⟨hnd, List.nodup_singleton k, by
    intro a ha hb
    simp only [List.map_cons, List.map_nil, List.mem_singleton] at hb
    exact hfresh (hb ▸ ha)⟩

/-- Inversion of a successful `createBooking`. -/
theorem createBooking_ok {s : Store} {eid : Nat} {s' : Store} {r : Nat}
    (h : createBooking s eid = .ok (s', r)) :
    mapHas s.events eid = true ∧ r = s.nextBookingId ∧
      s' = { s with
        bookings := mapSet s.bookings s.nextBookingId
          { id := s.nextBookingId, event_id := eid, status := .booked },
        bookingSeats := mapSet s.bookingSeats s.nextBookingId [],
        nextBookingId := s.nextBookingId + 1 } := by
  rw [createBooking] at h
  split at h
  · injection h with h1
    injection h1 with h2 h3
    exact ⟨by assumption, h3.symm, h2.symm⟩
  · cases h

theorem WF_createBooking {s : Store} (wf : WF s) {eid : Nat} {s' : Store}
    {r : Nat} (h : createBooking s eid = .ok (s', r)) : WF s' := by
  obtain ⟨-, -, rfl⟩ := createBooking_ok h
  have hfreshb : mapHas s.bookings s.nextBookingId = false := by
    rw [mapHas_eq_false_iff]
    intro hc
    obtain ⟨p, hp, hp1⟩ := List.mem_map.1 hc
    exact absurd (hp1 ▸ wf.bookings_lt p hp) (lt_irrefl _)
  have hfreshq : mapHas s.bookingSeats s.nextBookingId = false := by
    rw [mapHas_eq_false_iff]
    intro hc
    obtain ⟨p, hp, hp1⟩ := List.mem_map.1 hc
    exact absurd (hp1 ▸ wf.bs_lt p hp) (lt_irrefl _)
  have hb := mapSet_fresh_append
    (α := Booking) { id := s.nextBookingId, event_id := eid, status := .booked }
    hfreshb
  have hq := mapSet_fresh_append (α := List Nat) [] hfreshq
  refine ⟨wf.seats_lt, wf.seats_nodup, wf.seat_key, ?_, ?_, ?_, ?_, ?_, ?_,
    ?_, ?_, ?_, ?_, ?_, ?_, wf.timer_seat, wf.timer_not_free, ?_,
    wf.eventSeats_nodup⟩
  · intro p hp
    rw [hb] at hp
    rcases List.mem_append.1 hp with h' | h'
    · have := wf.bookings_lt p h'
      show p.1 < s.nextBookingId + 1
      omega
    · simp only [List.mem_singleton] at h'
      rw [h']
      show s.nextBookingId < s.nextBookingId + 1
      omega
  · rw [hb]
    exact nodup_keys_snoc _ wf.bookings_nodup (mapHas_eq_false_iff.1 hfreshb)
  · intro q hq'
    rw [hq] at hq'
    rcases List.mem_append.1 hq' with h' | h'
    · have := wf.bs_lt q h'
      show q.1 < s.nextBookingId + 1
      omega
    · simp only [List.mem_singleton] at h'
      rw [h']
      show s.nextBookingId < s.nextBookingId + 1
      omega
  · rw [hq]
    exact nodup_keys_snoc _ wf.bs_nodup (mapHas_eq_false_iff.1 hfreshq)
  · intro p hp
    rw [hb] at hp
    rw [hq]
    rcases List.mem_append.1 hp with h' | h'
    · exact mapHas_append_left (wf.booking_bs p h')
    · simp only [List.mem_singleton] at h'
      rw [h']
      exact mapHas_append_self [] (mapGet_eq_none_iff.2
        (mapHas_eq_false_iff.1 hfreshq))
  · intro q hq'
    rw [hq] at hq'
    rcases List.mem_append.1 hq' with h' | h'
    · exact wf.held_nodup q h'
    · simp only [List.mem_singleton] at h'
      rw [h']
      exact List.nodup_nil
  · intro q hq' sid hmem
    rw [hq] at hq'
    rw [hb]
    rcases List.mem_append.1 hq' with h' | h'
    · exact mapHas_append_left (wf.held_booking q h' sid hmem)
    · simp only [List.mem_singleton] at h'
      rw [h'] at hmem
      cases hmem
  · intro q hq' sid hmem
    rw [hq] at hq'
    rcases List.mem_append.1 hq' with h' | h'
    · exact wf.held_seat q h' sid hmem
    · simp only [List.mem_singleton] at h'
      rw [h'] at hmem
      cases hmem
  · intro q hq' sid hmem st hst
    rw [hq] at hq'
    rcases List.mem_append.1 hq' with h' | h'
    · exact wf.held_status q h' sid hmem st hst
    · simp only [List.mem_singleton] at h'
      rw [h'] at hmem
      cases hmem
  · intro q hq' sid hmem st hst bk hbk
    rw [hq] at hq'
    rcases List.mem_append.1 hq' with h' | h'
    · rw [hb, mapGet_append_of_has (wf.held_booking q h' sid hmem)] at hbk
      exact wf.held_event q h' sid hmem st hst bk hbk
    · simp only [List.mem_singleton] at h'
      rw [h'] at hmem
      cases hmem
  · intro q hq' sid hmem st hst hsold bk hbk
    rw [hq] at hq'
    rcases List.mem_append.1 hq' with h' | h'
    · rw [hb, mapGet_append_of_has (wf.held_booking q h' sid hmem)] at hbk
      exact wf.sold_confirmed q h' sid hmem st hst hsold bk hbk
    · simp only [List.mem_singleton] at h'
      rw [h'] at hmem
      cases hmem
  · intro p hp hnf
    rw [hq, holdersIn_append, holdersIn_cons, holdersIn_nil]
    simp only [List.not_mem_nil, if_false, List.append_nil]
    exact wf.not_free_held p hp hnf
  · intro p hp hres q hq' hmem bk hbk hbooked
    rw [hq] at hq'
    rcases List.mem_append.1 hq' with h' | h'
    · rw [hb, mapGet_append_of_has (wf.held_booking q h' p.1 hmem)] at hbk
      exact wf.reserved_booked_timer p hp hres q h' hmem bk hbk hbooked
    · simp only [List.mem_singleton] at h'
      rw [h'] at hmem
      cases hmem

/-- Inversion of a successful `selectSeat`. -/
theorem selectSeat_ok {s : Store} {b sid : Nat} {s' : Store} {msg : String}
    (h : selectSeat s b sid = .ok (s', msg)) :
    ∃ bk st, mapGet s.bookings b = some bk ∧ mapGet s.seats sid = some st ∧
      bk.status ≠ .cancelled ∧ bk.status ≠ .confirmed ∧
      st.event_id = bk.event_id ∧ st.status = .FREE ∧
      s' = { s with
        seats := mapSet s.seats sid { st with status := .RESERVED },
        bookingSeats := bsAdd s.bookingSeats b sid,
        seatTimeouts := setAdd s.seatTimeouts sid } ∧
      msg = "Seat successfully added to booking" := by
  rw [selectSeat] at h
  split at h
  · cases h
  next bk hbk =>
    split at h
    · cases h
    next st hst =>
      split at h
      · cases h
      next hterm =>
        split at h
        · cases h
        next hev =>
          split at h
          · cases h
          next hfree =>
            injection h with h1
            injection h1 with h2 h3
            push_neg at hterm
            push_neg at hev
            push_neg at hfree
            exact ⟨bk, st, hbk, hst, hterm.1, hterm.2, hev, hfree,
              h2.symm, h3.symm⟩

theorem WF_selectSeat {s : Store} (wf : WF s) {b sid : Nat} {s' : Store}
    {msg : String} (h : selectSeat s b sid = .ok (s', msg)) : WF s' := by
  obtain ⟨bk, st, hbk, hst, _, _, hev, hfree, rfl, -⟩ := selectSeat_ok h
  have hpseat : (sid, st) ∈ s.seats := mapGet_mem hst
  have hnotheld : holdersIn s.bookingSeats sid = [] :=
    wf.free_not_held hpseat hfree
  have hnotheld' := holdersIn_eq_nil_iff.1 hnotheld
  have hhasl : mapHas s.bookingSeats b = true :=
    wf.booking_bs (b, bk) (mapGet_mem hbk)
  obtain ⟨l, hl⟩ := Option.isSome_iff_exists.1 (by rw [← mapHas]; exact hhasl)
  have hadd : bsAdd s.bookingSeats b sid = mapSet s.bookingSeats b (setAdd l sid) := by
    rw [bsAdd, hl]
  have hlmem : (b, l) ∈ s.bookingSeats := mapGet_mem hl
  have hbsmem : ∀ q ∈ mapSet s.bookingSeats b (setAdd l sid),
      q ∈ s.bookingSeats ∨ q = (b, setAdd l sid) := fun q hq => mem_mapSet hq
  have hseatget : ∀ {sid2 : Nat}, sid2 ≠ sid →
      mapGet (mapSet s.seats sid { st with status := .RESERVED }) sid2 =
        mapGet s.seats sid2 := fun hne => mapGet_mapSet_ne s.seats _ hne
  have hseatself :
      mapGet (mapSet s.seats sid { st with status := .RESERVED }) sid =
        some { st with status := .RESERVED } := mapGet_mapSet_self _ _ _
  have hmemsplit : ∀ {q : Nat × List Nat} {sid2 : Nat},
      q ∈ s.bookingSeats ∨ q = (b, setAdd l sid) → sid2 ∈ q.2 → sid2 ≠ sid →
      ∃ q0 ∈ s.bookingSeats, q0.1 = q.1 ∧ sid2 ∈ q0.2 := by
    rintro q sid2 (hq | rfl) hmem hne
    · exact ⟨q, hq, rfl, hmem⟩
    · rcases mem_setAdd.1 hmem with h' | h'
      · exact ⟨(b, l), hlmem, rfl, h'⟩
      · exact absurd h' hne
  refine ⟨?_, ?_, ?_, wf.bookings_lt, wf.bookings_nodup, ?_, ?_, ?_, ?_,
    ?_, ?_, ?_, ?_, ?_, ?_, ?_, ?_, ?_, wf.eventSeats_nodup⟩
  · intro p hp
    rcases mem_mapSet hp with h' | h'
    · exact wf.seats_lt p h'
    · rw [h']
      exact wf.seats_lt (sid, st) hpseat
  · show ((mapSet s.seats sid _).map Prod.fst).Nodup
    rw [mapSet_keys_of_has _ (by rw [mapHas, hst]; rfl)]
    exact wf.seats_nodup
  · intro p hp
    rcases mem_mapSet hp with h' | h'
    · exact wf.seat_key p h'
    · rw [h']
      exact wf.seat_key (sid, st) hpseat
  · intro q hq
    rw [hadd] at hq
    rcases hbsmem q hq with h' | h'
    · exact wf.bs_lt q h'
    · rw [h']
      exact wf.bs_lt (b, l) hlmem
  · show ((bsAdd s.bookingSeats b sid).map Prod.fst).Nodup
    rw [hadd, mapSet_keys_of_has _ hhasl]
    exact wf.bs_nodup
  · intro p hp
    rw [hadd]
    exact mapHas_mapSet_of_has _ (wf.booking_bs p hp)
  · intro q hq
    rw [hadd] at hq
    rcases hbsmem q hq with h' | h'
    · exact wf.held_nodup q h'
    · rw [h']
      exact setAdd_nodup (wf.held_nodup (b, l) hlmem) sid
  · intro q hq sid2 hmem
    rw [hadd] at hq
    rcases hbsmem q hq with h' | h'
    · exact wf.held_booking q h' sid2 hmem
    · rw [h']
      rw [mapHas, hbk]
      rfl
  · intro q hq sid2 hmem
    rw [hadd] at hq
    by_cases hne : sid2 = sid
    · subst hne
      rw [mapHas, hseatself]
      rfl
    · obtain ⟨q0, hq0, -, hmem0⟩ := hmemsplit (hbsmem q hq) hmem hne
      rw [mapHas, hseatget hne, ← mapHas]
      exact wf.held_seat q0 hq0 sid2 hmem0
  · intro q hq sid2 hmem st2 hst2
    rw [hadd] at hq
    by_cases hne : sid2 = sid
    · subst hne
      rw [hseatself] at hst2
      injection hst2 with h'
      rw [← h']
      intro hc
      cases hc
    · obtain ⟨q0, hq0, -, hmem0⟩ := hmemsplit (hbsmem q hq) hmem hne
      rw [hseatget hne] at hst2
      exact wf.held_status q0 hq0 sid2 hmem0 st2 hst2
  · intro q hq sid2 hmem st2 hst2 bk2 hbk2
    rw [hadd] at hq
    by_cases hne : sid2 = sid
    · subst hne
      -- `sid` is held only by the freshly updated entry of `b`
      rcases hbsmem q hq with h' | h'
      · exact absurd hmem (hnotheld' q h')
      · subst h'
        rw [hseatself] at hst2
        injection hst2 with h2
        rw [Option.mem_def] at hbk2
        have hbk2' : mapGet s.bookings b = some bk2 := hbk2
        rw [hbk] at hbk2'
        injection hbk2' with h3
        rw [← h2, ← h3]
        exact hev
    · obtain ⟨q0, hq0, hq01, hmem0⟩ := hmemsplit (hbsmem q hq) hmem hne
      rw [hseatget hne] at hst2
      rw [← hq01] at hbk2
      exact wf.held_event q0 hq0 sid2 hmem0 st2 hst2 bk2 hbk2
  · intro q hq sid2 hmem st2 hst2 hsold bk2 hbk2
    rw [hadd] at hq
    by_cases hne : sid2 = sid
    · subst hne
      rw [hseatself] at hst2
      injection hst2 with h'
      rw [← h'] at hsold
      cases hsold
    · obtain ⟨q0, hq0, hq01, hmem0⟩ := hmemsplit (hbsmem q hq) hmem hne
      rw [hseatget hne] at hst2
      rw [← hq01] at hbk2
      exact wf.sold_confirmed q0 hq0 sid2 hmem0 st2 hst2 hsold bk2 hbk2
  · intro p hp hnf
    rcases mem_mapSet hp with h' | h'
    · by_cases hne : p.1 = sid
      · exfalso
        have : mapGet s.seats p.1 = some p.2 :=
          mapGet_of_mem_nodup h' wf.seats_nodup
        rw [hne, hst] at this
        injection this with h2
        rw [← h2] at hnf
        exact hnf hfree
      · show (holdersIn (bsAdd s.bookingSeats b sid) p.1).length = 1
        rw [hadd, holdersIn_mapSet hl (fun l' hl' => ?_) wf.bs_nodup]
        · exact wf.not_free_held p h' hnf
        · rw [hl] at hl'
          injection hl' with h2
          subst h2
          rw [mem_setAdd]
          constructor
          · rintro (hh | hh)
            · exact hh
            · exact absurd hh hne
          · exact Or.inl
    · rw [h']
      show (holdersIn (bsAdd s.bookingSeats b sid) sid).length = 1
      rw [hadd, holdersIn_mapSet_setAdd hl hnotheld wf.bs_nodup]
      rfl
  · intro sid2 hsid2
    rcases mem_setAdd.1 hsid2 with h' | h'
    · by_cases hne : sid2 = sid
      · subst hne
        rw [mapHas, hseatself]
        rfl
      · rw [mapHas, hseatget hne, ← mapHas]
        exact wf.timer_seat sid2 h'
    · subst h'
      rw [mapHas, hseatself]
      rfl
  · intro sid2 hsid2 st2 hst2
    by_cases hne : sid2 = sid
    · subst hne
      rw [hseatself] at hst2
      injection hst2 with h'
      rw [← h']
      intro hc
      cases hc
    · rcases mem_setAdd.1 hsid2 with h' | h'
      · rw [hseatget hne] at hst2
        exact wf.timer_not_free sid2 h' st2 hst2
      · exact absurd h' hne
  · intro p hp hres q hq hmem bk2 hbk2 hbooked
    by_cases hne : p.1 = sid
    · rw [hne]
      exact self_mem_setAdd _ _
    · rw [hadd] at hq
      obtain ⟨q0, hq0, hq01, hmem0⟩ := hmemsplit (hbsmem q hq) hmem hne
      have hpold : p ∈ s.seats := by
        rcases mem_mapSet hp with h' | h'
        · exact h'
        · exfalso
          apply hne
          rw [h']
      rw [← hq01] at hbk2
      exact mem_setAdd.2 (Or.inl
        (wf.reserved_booked_timer p hpold hres q0 hq0 hmem0 bk2 hbk2 hbooked))

theorem mem_mapSet_strong {α : Type} {m : NMap α} {k : Nat} {v : α}
    {p : Nat × α} (h : p ∈ mapSet m k v) :
    (p ∈ m ∧ p.1 ≠ k) ∨ p = (k, v) := by
  rw [mapSet] at h
  by_cases hh : mapHas m k
  · rw [if_pos hh] at h
    rcases List.mem_map.1 h with ⟨q, hq, hqe⟩
    by_cases hk : q.1 = k
    · right; rw [if_pos hk] at hqe; exact hqe.symm
    · left; rw [if_neg hk] at hqe; exact ⟨hqe ▸ hq, hqe ▸ hk⟩
  · rw [if_neg hh] at h
    rcases List.mem_append.1 h with h' | h'
    · refine Or.inl ⟨h', fun hc => ?_⟩
      rw [Bool.not_eq_true, mapHas_eq_false_iff] at hh
      exact hh (hc ▸ List.mem_map_of_mem Prod.fst h')
    · right; simpa using h'

theorem mapHas_rffh (bs : NMap (List Nat)) (sid k : Nat) :
    mapHas (removeFromFirstHolder bs sid) k = mapHas bs k := by
  by_cases h : mapHas bs k
  · rw [h, mapHas_iff, rffh_keys]
    exact mapHas_iff.1 h
  · rw [Bool.not_eq_true] at h
    rw [h, mapHas_eq_false_iff, rffh_keys]
    exact mapHas_eq_false_iff.1 h

theorem WF_releaseSeatInternal {s : Store} (wf : WF s) (sid : Nat) :
    WF (releaseSeatInternal s sid) := by
  rw [releaseSeatInternal]
  split
  case h_2 => exact wf
  case h_1 st hst =>
    split
    case isFalse => exact wf
    case isTrue hres =>
      have hpseat : (sid, st) ∈ s.seats := mapGet_mem hst
      have hone := wf.not_free_held (sid, st) hpseat
        (by rw [hres]; intro hc; cases hc)
      obtain ⟨b0, hb0⟩ := List.length_eq_one.1 hone
      have hgone : holdersIn (removeFromFirstHolder s.bookingSeats sid) sid = [] := by
        rw [holdersIn_rffh_self, hb0, List.tail_cons]
      have hgone' := holdersIn_eq_nil_iff.1 hgone
      have hmemsub : ∀ {q : Nat × List Nat},
          q ∈ removeFromFirstHolder s.bookingSeats sid →
          ∃ q0 ∈ s.bookingSeats, q.1 = q0.1 ∧ ∀ x ∈ q.2, x ∈ q0.2 := by
        intro q hq
        obtain ⟨q0, hq0, h1, h2⟩ := mem_rffh hq
        refine ⟨q0, hq0, h1, ?_⟩
        rcases h2 with h2 | h2
        · rw [h2]; exact fun x hx => hx
        · rw [h2]; exact fun x hx => (mem_setDelete.1 hx).1
      have hseatget : ∀ {sid2 : Nat}, sid2 ≠ sid →
          mapGet (mapSet s.seats sid { st with status := .FREE }) sid2 =
            mapGet s.seats sid2 := fun hne => mapGet_mapSet_ne s.seats _ hne
      have hseatself :
          mapGet (mapSet s.seats sid { st with status := .FREE }) sid =
            some { st with status := .FREE } := mapGet_mapSet_self _ _ _
      refine ⟨?_, ?_, ?_, wf.bookings_lt, wf.bookings_nodup, ?_, ?_, ?_, ?_,
        ?_, ?_, ?_, ?_, ?_, ?_, ?_, ?_, ?_, wf.eventSeats_nodup⟩
      · intro p hp
        rcases mem_mapSet hp with h' | h'
        · exact wf.seats_lt p h'
        · rw [h']
          exact wf.seats_lt (sid, st) hpseat
      · show ((mapSet s.seats sid _).map Prod.fst).Nodup
        rw [mapSet_keys_of_has _ (by rw [mapHas, hst]; rfl)]
        exact wf.seats_nodup
      · intro p hp
        rcases mem_mapSet hp with h' | h'
        · exact wf.seat_key p h'
        · rw [h']
          exact wf.seat_key (sid, st) hpseat
      · intro q hq
        obtain ⟨q0, hq0, h1, -⟩ := hmemsub hq
        rw [h1]
        exact wf.bs_lt q0 hq0
      · show ((removeFromFirstHolder s.bookingSeats sid).map Prod.fst).Nodup
        rw [rffh_keys]
        exact wf.bs_nodup
      · intro p hp
        rw [mapHas_rffh]
        exact wf.booking_bs p hp
      · intro q hq
        obtain ⟨q0, hq0, -, h2⟩ := mem_rffh hq
        rcases h2 with h2 | h2
        · rw [h2]; exact wf.held_nodup q0 hq0
        · rw [h2]; exact setDelete_nodup (wf.held_nodup q0 hq0) sid
      · intro q hq sid2 hmem
        obtain ⟨q0, hq0, h1, hsub⟩ := hmemsub hq
        rw [h1]
        exact wf.held_booking q0 hq0 sid2 (hsub sid2 hmem)
      · intro q hq sid2 hmem
        by_cases hne : sid2 = sid
        · subst hne
          exact absurd hmem (hgone' q hq)
        · obtain ⟨q0, hq0, -, hsub⟩ := hmemsub hq
          rw [mapHas, hseatget hne, ← mapHas]
          exact wf.held_seat q0 hq0 sid2 (hsub sid2 hmem)
      · intro q hq sid2 hmem st2 hst2
        by_cases hne : sid2 = sid
        · subst hne
          exact absurd hmem (hgone' q hq)
        · obtain ⟨q0, hq0, -, hsub⟩ := hmemsub hq
          rw [hseatget hne] at hst2
          exact wf.held_status q0 hq0 sid2 (hsub sid2 hmem) st2 hst2
      · intro q hq sid2 hmem st2 hst2 bk2 hbk2
        by_cases hne : sid2 = sid
        · subst hne
          exact absurd hmem (hgone' q hq)
        · obtain ⟨q0, hq0, h1, hsub⟩ := hmemsub hq
          rw [hseatget hne] at hst2
          rw [h1] at hbk2
          exact wf.held_event q0 hq0 sid2 (hsub sid2 hmem) st2 hst2 bk2 hbk2
      · intro q hq sid2 hmem st2 hst2 hsold bk2 hbk2
        by_cases hne : sid2 = sid
        · subst hne
          exact absurd hmem (hgone' q hq)
        · obtain ⟨q0, hq0, h1, hsub⟩ := hmemsub hq
          rw [hseatget hne] at hst2
          rw [h1] at hbk2
          exact wf.sold_confirmed q0 hq0 sid2 (hsub sid2 hmem) st2 hst2
            hsold bk2 hbk2
      · intro p hp hnf
        rcases mem_mapSet_strong hp with ⟨h', hne⟩ | h'
        · show (holdersIn (removeFromFirstHolder s.bookingSeats sid) p.1).length = 1
          rw [holdersIn_rffh_ne _ hne]
          exact wf.not_free_held p h' hnf
        · exfalso
          rw [h'] at hnf
          exact hnf rfl
      · intro sid2 hsid2
        obtain ⟨h', hne⟩ := mem_setDelete.1 hsid2
        rw [mapHas, hseatget hne, ← mapHas]
        exact wf.timer_seat sid2 h'
      · intro sid2 hsid2 st2 hst2
        obtain ⟨h', hne⟩ := mem_setDelete.1 hsid2
        rw [hseatget hne] at hst2
        exact wf.timer_not_free sid2 h' st2 hst2
      · intro p hp hres2 q hq hmem bk2 hbk2 hbooked
        rcases mem_mapSet_strong hp with ⟨h', hne⟩ | h'
        · obtain ⟨q0, hq0, h1, hsub⟩ := hmemsub hq
          rw [h1] at hbk2
          refine mem_setDelete.2 ⟨?_, hne⟩
          exact wf.reserved_booked_timer p h' hres2 q0 hq0 (hsub p.1 hmem)
            bk2 hbk2 hbooked
        · rw [h'] at hres2
          cases hres2

/-- Inversion of a successful `initiatePayment`. -/
theorem initiatePayment_ok {s : Store} {b : Nat} {s' : Store} {url : String}
    (h : initiatePayment s b = .ok (s', url)) :
    ∃ bk, mapGet s.bookings b = some bk ∧ bk.status = .booked ∧
      s' = { s with
        bookings := mapSet s.bookings b { bk with status := .payment_initiated },
        seatTimeouts := ((mapGet s.bookingSeats b).getD []).foldl setDelete
          s.seatTimeouts } ∧
      url = "http://localhost:3000/payment?booking_id=" ++ toString b := by
  rw [initiatePayment] at h
  split at h
  · cases h
  next bk hbk =>
    split at h
    · cases h
    next hne =>
      push_neg at hne
      injection h with h1
      injection h1 with h2 h3
      exact ⟨bk, hbk, hne, h2.symm, h3.symm⟩

theorem WF_initiatePayment {s : Store} (wf : WF s) {b : Nat} {s' : Store}
    {url : String} (h : initiatePayment s b = .ok (s', url)) : WF s' := by
  obtain ⟨bk, hbk, hbooked, rfl, -⟩ := initiatePayment_ok h
  have hbmem : (b, bk) ∈ s.bookings := mapGet_mem hbk
  have hbhas : mapHas s.bookings b = true := by rw [mapHas, hbk]; rfl
  have hbsget : ∀ {k : Nat},
      mapGet (mapSet s.bookings b { bk with status := .payment_initiated }) k =
        if k = b then some { bk with status := .payment_initiated }
        else mapGet s.bookings k := by
    intro k
    by_cases hk : k = b
    · rw [if_pos hk, hk, mapGet_mapSet_self]
    · rw [if_neg hk, mapGet_mapSet_ne _ _ hk]
  have hsub : ∀ {x : Nat},
      x ∈ ((mapGet s.bookingSeats b).getD []).foldl setDelete s.seatTimeouts →
      x ∈ s.seatTimeouts := fun hx => (mem_foldl_setDelete.1 hx).1
  refine ⟨wf.seats_lt, wf.seats_nodup, wf.seat_key, ?_, ?_, wf.bs_lt,
    wf.bs_nodup, ?_, wf.held_nodup, ?_, wf.held_seat, wf.held_status, ?_,
    ?_, wf.not_free_held, ?_, ?_, ?_, wf.eventSeats_nodup⟩
  · intro p hp
    rcases mem_mapSet hp with h' | h'
    · exact wf.bookings_lt p h'
    · rw [h']
      exact wf.bookings_lt (b, bk) hbmem
  · show ((mapSet s.bookings b _).map Prod.fst).Nodup
    rw [mapSet_keys_of_has _ hbhas]
    exact wf.bookings_nodup
  · intro p hp
    rcases mem_mapSet hp with h' | h'
    · exact wf.booking_bs p h'
    · rw [h']
      exact wf.booking_bs (b, bk) hbmem
  · intro q hq sid hmem
    rw [mapHas, hbsget]
    by_cases hk : q.1 = b
    · rw [if_pos hk]; rfl
    · rw [if_neg hk, ← mapHas]
      exact wf.held_booking q hq sid hmem
  · intro q hq sid hmem st hst bk2 hbk2
    rw [Option.mem_def, hbsget] at hbk2
    by_cases hk : q.1 = b
    · rw [if_pos hk] at hbk2
      injection hbk2 with h2
      rw [← h2]
      have := wf.held_event q hq sid hmem st hst bk (by rw [hk, hbk]; rfl)
      exact this
    · rw [if_neg hk] at hbk2
      exact wf.held_event q hq sid hmem st hst bk2 hbk2
  · intro q hq sid hmem st hst hsold bk2 hbk2
    rw [Option.mem_def, hbsget] at hbk2
    by_cases hk : q.1 = b
    · -- a SOLD seat held by `b` would force `bk.status = confirmed`,
      -- contradicting the `booked` guard of `initiatePayment`
      exfalso
      have := wf.sold_confirmed q hq sid hmem st hst hsold bk
        (by rw [hk, hbk]; rfl)
      rw [this] at hbooked
      cases hbooked
    · rw [if_neg hk] at hbk2
      exact wf.sold_confirmed q hq sid hmem st hst hsold bk2 hbk2
  · intro sid hsid
    exact wf.timer_seat sid (hsub hsid)
  · intro sid hsid st hst
    exact wf.timer_not_free sid (hsub hsid) st hst
  · intro p hp hres q hq hmem bk2 hbk2 hbooked2
    rw [Option.mem_def, hbsget] at hbk2
    by_cases hk : q.1 = b
    · rw [if_pos hk] at hbk2
      injection hbk2 with h2
      rw [← h2] at hbooked2
      cases hbooked2
    · rw [if_neg hk] at hbk2
      have hold := wf.reserved_booked_timer p hp hres q hq hmem bk2 hbk2 hbooked2
      rw [mem_foldl_setDelete]
      refine ⟨hold, fun hc => ?_⟩
      -- `p` would be held both by `q` and by `b`, contradicting uniqueness
      obtain ⟨lb, hlb⟩ := Option.isSome_iff_exists.1
        (by rw [← mapHas]; exact wf.booking_bs (b, bk) hbmem)
      rw [hlb] at hc
      have h1 := wf.unique_holder (mapGet_mem hlb) (show p.1 ∈ lb from hc)
      have h2 := wf.unique_holder hq hmem
      rw [h1] at h2
      injection h2 with h3
      exact hk h3.symm

/-- Changing one booking's status to a non-`booked` status (and, when the
old status could own SOLD seats, only to `confirmed`) preserves
well-formedness. -/
theorem WF_setBookingStatus {s : Store} (wf : WF s) {b : Nat} {bk : Booking}
    (hbk : mapGet s.bookings b = some bk) {st' : BookingStatus}
    (hnb : st' ≠ .booked)
    (hsc : st' = .confirmed ∨ bk.status ≠ .confirmed) :
    WF { s with bookings := mapSet s.bookings b { bk with status := st' } } := by
  have hbmem : (b, bk) ∈ s.bookings := mapGet_mem hbk
  have hbhas : mapHas s.bookings b = true := by rw [mapHas, hbk]; rfl
  have hbsget : ∀ {k : Nat},
      mapGet (mapSet s.bookings b { bk with status := st' }) k =
        if k = b then some { bk with status := st' }
        else mapGet s.bookings k := by
    intro k
    by_cases hk : k = b
    · rw [if_pos hk, hk, mapGet_mapSet_self]
    · rw [if_neg hk, mapGet_mapSet_ne _ _ hk]
  refine ⟨wf.seats_lt, wf.seats_nodup, wf.seat_key, ?_, ?_, wf.bs_lt,
    wf.bs_nodup, ?_, wf.held_nodup, ?_, wf.held_seat, wf.held_status, ?_,
    ?_, wf.not_free_held, wf.timer_seat, wf.timer_not_free, ?_,
    wf.eventSeats_nodup⟩
  · intro p hp
    rcases mem_mapSet hp with h' | h'
    · exact wf.bookings_lt p h'
    · rw [h']
      exact wf.bookings_lt (b, bk) hbmem
  · show ((mapSet s.bookings b _).map Prod.fst).Nodup
    rw [mapSet_keys_of_has _ hbhas]
    exact wf.bookings_nodup
  · intro p hp
    rcases mem_mapSet hp with h' | h'
    · exact wf.booking_bs p h'
    · rw [h']
      exact wf.booking_bs (b, bk) hbmem
  · intro q hq sid hmem
    rw [mapHas, hbsget]
    by_cases hk : q.1 = b
    · rw [if_pos hk]; rfl
    · rw [if_neg hk, ← mapHas]
      exact wf.held_booking q hq sid hmem
  · intro q hq sid hmem st hst bk2 hbk2
    rw [Option.mem_def, hbsget] at hbk2
    by_cases hk : q.1 = b
    · rw [if_pos hk] at hbk2
      injection hbk2 with h2
      rw [← h2]
      exact wf.held_event q hq sid hmem st hst bk (by rw [hk, hbk]; rfl)
    · rw [if_neg hk] at hbk2
      exact wf.held_event q hq sid hmem st hst bk2 hbk2
  · intro q hq sid hmem st hst hsold bk2 hbk2
    rw [Option.mem_def, hbsget] at hbk2
    by_cases hk : q.1 = b
    · rw [if_pos hk] at hbk2
      injection hbk2 with h2
      rw [← h2]
      have hconf := wf.sold_confirmed q hq sid hmem st hst hsold bk
        (by rw [hk, hbk]; rfl)
      rcases hsc with h' | h'
      · show Booking.status { bk with status := st' } = .confirmed
        rw [h']
      · exact absurd hconf h'
    · rw [if_neg hk] at hbk2
      exact wf.sold_confirmed q hq sid hmem st hst hsold bk2 hbk2
  · intro p hp hres q hq hmem bk2 hbk2 hbooked
    rw [Option.mem_def, hbsget] at hbk2
    by_cases hk : q.1 = b
    · rw [if_pos hk] at hbk2
      injection hbk2 with h2
      rw [← h2] at hbooked
      exact absurd hbooked hnb
    · rw [if_neg hk] at hbk2
      exact wf.reserved_booked_timer p hp hres q hq hmem bk2 hbk2 hbooked

theorem markSold_bookings (s : Store) (sid : Nat) :
    (markSold s sid).bookings = s.bookings := by
  rw [markSold]
  split <;> rfl

theorem markSold_bookingSeats (s : Store) (sid : Nat) :
    (markSold s sid).bookingSeats = s.bookingSeats := by
  rw [markSold]
  split <;> rfl

theorem WF_markSold {s : Store} (wf : WF s) {sid : Nat}
    (hheld : ∃ q ∈ s.bookingSeats, sid ∈ q.2 ∧
      ∀ bk ∈ mapGet s.bookings q.1, bk.status = .confirmed) :
    WF (markSold s sid) := by
  obtain ⟨qh, hqh, hmemh, hconf⟩ := hheld
  rw [markSold]
  split
  case h_2 => exact wf
  case h_1 st hst =>
    have hpseat : (sid, st) ∈ s.seats := mapGet_mem hst
    have hseatget : ∀ {sid2 : Nat}, sid2 ≠ sid →
        mapGet (mapSet s.seats sid { st with status := .SOLD }) sid2 =
          mapGet s.seats sid2 := fun hne => mapGet_mapSet_ne s.seats _ hne
    have hseatself :
        mapGet (mapSet s.seats sid { st with status := .SOLD }) sid =
          some { st with status := .SOLD } := mapGet_mapSet_self _ _ _
    refine ⟨?_, ?_, ?_, wf.bookings_lt, wf.bookings_nodup, wf.bs_lt,
      wf.bs_nodup, ?_, wf.held_nodup, wf.held_booking, ?_, ?_, ?_, ?_, ?_,
      ?_, ?_, ?_, wf.eventSeats_nodup⟩
    · intro p hp
      rcases mem_mapSet hp with h' | h'
      · exact wf.seats_lt p h'
      · rw [h']
        exact wf.seats_lt (sid, st) hpseat
    · show ((mapSet s.seats sid _).map Prod.fst).Nodup
      rw [mapSet_keys_of_has _ (by rw [mapHas, hst]; rfl)]
      exact wf.seats_nodup
    · intro p hp
      rcases mem_mapSet hp with h' | h'
      · exact wf.seat_key p h'
      · rw [h']
        exact wf.seat_key (sid, st) hpseat
    · intro p hp
      exact wf.booking_bs p hp
    · intro q hq sid2 hmem
      by_cases hne : sid2 = sid
      · subst hne
        rw [mapHas, hseatself]
        rfl
      · rw [mapHas, hseatget hne, ← mapHas]
        exact wf.held_seat q hq sid2 hmem
    · intro q hq sid2 hmem st2 hst2
      by_cases hne : sid2 = sid
      · subst hne
        rw [hseatself] at hst2
        injection hst2 with h'
        rw [← h']
        intro hc
        cases hc
      · rw [hseatget hne] at hst2
        exact wf.held_status q hq sid2 hmem st2 hst2
    · intro q hq sid2 hmem st2 hst2 bk2 hbk2
      by_cases hne : sid2 = sid
      · subst hne
        rw [hseatself] at hst2
        injection hst2 with h'
        rw [← h']
        exact wf.held_event q hq sid2 hmem st hst bk2 hbk2
      · rw [hseatget hne] at hst2
        exact wf.held_event q hq sid2 hmem st2 hst2 bk2 hbk2
    · intro q hq sid2 hmem st2 hst2 hsold bk2 hbk2
      by_cases hne : sid2 = sid
      · subst hne
        -- the unique holder of `sid` is the confirmed booking from `hheld`
        have h1 := wf.unique_holder hq hmem
        have h2 := wf.unique_holder hqh hmemh
        rw [h1] at h2
        injection h2 with h3
        rw [← h3] at hconf
        exact hconf bk2 hbk2
      · rw [hseatget hne] at hst2
        exact wf.sold_confirmed q hq sid2 hmem st2 hst2 hsold bk2 hbk2
    · intro p hp hnf
      rcases mem_mapSet_strong hp with ⟨h', hne⟩ | h'
      · exact wf.not_free_held p h' hnf
      · rw [h']
        have hnotfree := wf.held_status qh hqh sid hmemh st hst
        exact wf.not_free_held (sid, st) hpseat hnotfree
    · intro sid2 hsid2
      by_cases hne : sid2 = sid
      · subst hne
        rw [mapHas, hseatself]
        rfl
      · rw [mapHas, hseatget hne, ← mapHas]
        exact wf.timer_seat sid2 hsid2
    · intro sid2 hsid2 st2 hst2
      by_cases hne : sid2 = sid
      · subst hne
        rw [hseatself] at hst2
        injection hst2 with h'
        rw [← h']
        intro hc
        cases hc
      · rw [hseatget hne] at hst2
        exact wf.timer_not_free sid2 hsid2 st2 hst2
    · intro p hp hres q hq hmem bk2 hbk2 hbooked
      rcases mem_mapSet_strong hp with ⟨h', hne⟩ | h'
      · exact wf.reserved_booked_timer p h' hres q hq hmem bk2 hbk2 hbooked
      · rw [h'] at hres
        cases hres

theorem WF_foldl_markSold {s : Store} (wf : WF s) {L : List Nat}
    (hL : ∀ sid ∈ L, ∃ q ∈ s.bookingSeats, sid ∈ q.2 ∧
      ∀ bk ∈ mapGet s.bookings q.1, bk.status = .confirmed) :
    WF (L.foldl markSold s) := by
  induction L generalizing s with
  | nil => exact wf
  | cons a L' ih =>
    rw [List.foldl_cons]
    apply ih (WF_markSold wf (hL a (List.mem_cons_self _ _)))
    intro sid hsid
    rw [markSold_bookingSeats, markSold_bookings]
    exact hL sid (List.mem_cons_of_mem _ hsid)

theorem WF_foldl_release {s : Store} (wf : WF s) (L : List Nat) :
    WF (L.foldl releaseSeatInternal s) := by
  induction L generalizing s with
  | nil => exact wf
  | cons a L' ih =>
    rw [List.foldl_cons]
    exact ih (WF_releaseSeatInternal wf a)

theorem WF_confirmPayment {s : Store} (wf : WF s) (b : Nat) :
    WF (confirmPayment s b).1 := by
  rw [confirmPayment]
  split
  · exact wf
  next bk hbk =>
    split
    · exact wf
    next hst =>
      push_neg at hst
      apply WF_foldl_markSold (WF_setBookingStatus wf hbk
        (by intro hc; cases hc) (Or.inl rfl))
      intro sid hsid
      obtain ⟨l, hl⟩ : ∃ l, mapGet s.bookingSeats b = some l := by
        refine Option.isSome_iff_exists.1 ?_
        rw [← mapHas]
        exact wf.booking_bs (b, bk) (mapGet_mem hbk)
      have hsid2 : sid ∈ (mapGet s.bookingSeats b).getD [] := hsid
      rw [hl] at hsid2
      refine ⟨(b, l), mapGet_mem hl, hsid2, ?_⟩
      intro bk2 hbk2
      rw [Option.mem_def] at hbk2
      have hbk2' : mapGet (mapSet s.bookings b
          { bk with status := .confirmed }) b = some bk2 := hbk2
      rw [mapGet_mapSet_self] at hbk2'
      injection hbk2' with h2
      rw [← h2]

theorem WF_cancelBooking {s : Store} (wf : WF s) {b : Nat} {s' : Store}
    {msg : String} (h : cancelBooking s b = .ok (s', msg)) : WF s' := by
  rw [cancelBooking] at h
  split at h
  · cases h
  next bk hbk =>
    split at h
    · injection h with h1
      injection h1 with h2 h3
      rw [← h2]
      exact wf
    next hnc =>
      injection h with h1
      injection h1 with h2 h3
      rw [← h2]
      exact WF_foldl_release (WF_setBookingStatus wf hbk
        (by intro hc; cases hc) (Or.inr hnc)) _

theorem WF_failPayment {s : Store} (wf : WF s) (b : Nat) :
    WF (failPayment s b).1 := by
  rw [failPayment]
  split
  · exact wf
  next bk hbk =>
    split
    · exact wf
    next hnc =>
      split
      · exact wf
      · exact WF_foldl_release (WF_setBookingStatus wf hbk
          (by intro hc; cases hc) (Or.inr hnc)) _

theorem WF_releaseSeat {s : Store} (wf : WF s) {sid : Nat} {s' : Store}
    {msg : String} (h : releaseSeat s sid = .ok (s', msg)) : WF s' := by
  rw [releaseSeat] at h
  split at h
  · cases h
  · split at h
    · cases h
    · injection h with h1
      injection h1 with h2 h3
      rw [← h2]
      exact WF_releaseSeatInternal wf _

/-- Every store operation preserves well-formedness. -/
theorem WF_applyOp {s : Store} (wf : WF s) (op : Op) : WF (applyOp s op) := by
  cases op with
  | createEvent t e => exact WF_createEvent wf t e
  | createBooking eid =>
    rw [applyOp]
    split
    next s' r heq => exact WF_createBooking wf heq
    next => exact wf
  | selectSeat b sid =>
    rw [applyOp]
    split
    next s' r heq => exact WF_selectSeat wf heq
    next => exact wf
  | releaseSeat sid =>
    rw [applyOp]
    split
    next s' r heq => exact WF_releaseSeat wf heq
    next => exact wf
  | initiatePayment b =>
    rw [applyOp]
    split
    next s' r heq => exact WF_initiatePayment wf heq
    next => exact wf
  | cancelBooking b =>
    rw [applyOp]
    split
    next s' r heq => exact WF_cancelBooking wf heq
    next => exact wf
  | confirmPayment b => exact WF_confirmPayment wf b
  | failPayment b => exact WF_failPayment wf b
  | timerFire sid =>
    rw [applyOp]
    split
    · exact WF_releaseSeatInternal wf sid
    · exact wf

/-- Every reachable state is well-formed. -/
theorem Reachable.wf {s : Store} (h : Reachable s) : WF s := by
  induction h with
  | init => exact WF_init
  | step s op _ ih => exact WF_applyOp ih op

section FoldCharacterization

theorem markSold_seats_ne {s : Store} {x sid : Nat} (h : sid ≠ x) :
    mapGet (markSold s x).seats sid = mapGet s.seats sid := by
  rw [markSold]
  split
  · exact mapGet_mapSet_ne _ _ h
  · rfl

theorem foldl_markSold_bookings (L : List Nat) (s : Store) :
    (L.foldl markSold s).bookings = s.bookings := by
  induction L generalizing s with
  | nil => rfl
  | cons a L' ih => rw [List.foldl_cons, ih, markSold_bookings]

theorem foldl_markSold_bookingSeats (L : List Nat) (s : Store) :
    (L.foldl markSold s).bookingSeats = s.bookingSeats := by
  induction L generalizing s with
  | nil => rfl
  | cons a L' ih => rw [List.foldl_cons, ih, markSold_bookingSeats]

theorem markSold_seatTimeouts (s : Store) (sid : Nat) :
    (markSold s sid).seatTimeouts = s.seatTimeouts := by
  rw [markSold]
  split <;> rfl

theorem foldl_markSold_seatTimeouts (L : List Nat) (s : Store) :
    (L.foldl markSold s).seatTimeouts = s.seatTimeouts := by
  induction L generalizing s with
  | nil => rfl
  | cons a L' ih => rw [List.foldl_cons, ih, markSold_seatTimeouts]

theorem foldl_markSold_seats_ne {L : List Nat} {s : Store} {sid : Nat}
    (h : sid ∉ L) :
    mapGet (L.foldl markSold s).seats sid = mapGet s.seats sid := by
  induction L generalizing s with
  | nil => rfl
  | cons a L' ih =>
    rw [List.foldl_cons, ih (fun hc => h (List.mem_cons_of_mem _ hc)),
      markSold_seats_ne (fun hc => h (by rw [hc]; exact List.mem_cons_self _ _))]

theorem markSold_seats_self (s : Store) (sid : Nat) :
    ∀ st ∈ mapGet (markSold s sid).seats sid, st.status = .SOLD := by
  rw [markSold]
  split
  next st0 hst0 =>
    intro st hst
    rw [Option.mem_def, mapGet_mapSet_self] at hst
    injection hst with h'
    rw [← h']
  next hst0 =>
    intro st hst
    rw [Option.mem_def, hst0] at hst
    cases hst

theorem foldl_markSold_sold {L : List Nat} {s : Store} {sid : Nat}
    (h : sid ∈ L) :
    ∀ st ∈ mapGet (L.foldl markSold s).seats sid, st.status = .SOLD := by
  induction L generalizing s with
  | nil => cases h
  | cons a L' ih =>
    rw [List.foldl_cons]
    by_cases h' : sid ∈ L'
    · exact ih h'
    · have : sid = a := by
        rcases List.mem_cons.1 h with h'' | h''
        · exact h''
        · exact absurd h'' h'
      subst this
      intro st hst
      rw [Option.mem_def, foldl_markSold_seats_ne h'] at hst
      exact markSold_seats_self s sid st hst

theorem releaseSeatInternal_bookings (s : Store) (sid : Nat) :
    (releaseSeatInternal s sid).bookings = s.bookings := by
  rw [releaseSeatInternal]
  split
  · split <;> rfl
  · rfl

theorem foldl_release_bookings (L : List Nat) (s : Store) :
    (L.foldl releaseSeatInternal s).bookings = s.bookings := by
  induction L generalizing s with
  | nil => rfl
  | cons a L' ih => rw [List.foldl_cons, ih, releaseSeatInternal_bookings]

theorem releaseSeatInternal_seats_ne {s : Store} {x sid : Nat} (h : sid ≠ x) :
    mapGet (releaseSeatInternal s x).seats sid = mapGet s.seats sid := by
  rw [releaseSeatInternal]
  split
  · split
    · exact mapGet_mapSet_ne _ _ h
    · rfl
  · rfl

theorem foldl_release_seats_ne {L : List Nat} {s : Store} {sid : Nat}
    (h : sid ∉ L) :
    mapGet (L.foldl releaseSeatInternal s).seats sid = mapGet s.seats sid := by
  induction L generalizing s with
  | nil => rfl
  | cons a L' ih =>
    rw [List.foldl_cons, ih (fun hc => h (List.mem_cons_of_mem _ hc)),
      releaseSeatInternal_seats_ne
        (fun hc => h (by rw [hc]; exact List.mem_cons_self _ _))]

end FoldCharacterization

/-- C2.  Held-set/ownership invariant: in every reachable state, every
RESERVED or SOLD seat is a member of exactly one booking's held-seat set,
every FREE seat is a member of no booking's held-seat set, and every seat
in a booking's held-seat set belongs to a seat and a booking of the same
event. -/
theorem reachable_held_ownership {s : Store} (h : Reachable s) :
    (∀ p ∈ s.seats, (p.2.status = .RESERVED ∨ p.2.status = .SOLD) →
      (holdersIn s.bookingSeats p.1).length = 1) ∧
    (∀ p ∈ s.seats, p.2.status = .FREE →
      holdersIn s.bookingSeats p.1 = []) ∧
    (∀ q ∈ s.bookingSeats, ∀ sid ∈ q.2, ∃ st bk,
      mapGet s.seats sid = some st ∧ mapGet s.bookings q.1 = some bk ∧
        st.event_id = bk.event_id) := by
  have wf := h.wf
  refine ⟨?_, ?_, ?_⟩
  · intro p hp hst
    refine wf.not_free_held p hp ?_
    rcases hst with h' | h' <;> rw [h'] <;> intro hc <;> cases hc
  · intro p hp hst
    exact wf.free_not_held hp hst
  · intro q hq sid hmem
    obtain ⟨st, hst⟩ := Option.isSome_iff_exists.1
      (by rw [← mapHas]; exact wf.held_seat q hq sid hmem)
    obtain ⟨bk, hbk⟩ := Option.isSome_iff_exists.1
      (by rw [← mapHas]; exact wf.held_booking q hq sid hmem)
    exact ⟨st, bk, hst, hbk, wf.held_event q hq sid hmem st hst bk hbk⟩

/-- C2 witness: the invariant instantiated at the initial store. -/
theorem reachable_held_ownership_witness :
    (∀ p ∈ Store.init.seats,
      (p.2.status = .RESERVED ∨ p.2.status = .SOLD) →
      (holdersIn Store.init.bookingSeats p.1).length = 1) ∧
    (∀ p ∈ Store.init.seats, p.2.status = .FREE →
      holdersIn Store.init.bookingSeats p.1 = []) ∧
    (∀ q ∈ Store.init.bookingSeats, ∀ sid ∈ q.2, ∃ st bk,
      mapGet Store.init.seats sid = some st ∧
        mapGet Store.init.bookings q.1 = some bk ∧
        st.event_id = bk.event_id) :=
  reachable_held_ownership Reachable.init

/-- C7.  Payment callbacks never raise: `confirmPayment` and `failPayment`
always return the uniform acknowledgement `"OK"` (their result type has no
error case, matching the absence of any `throw` in the source), and when
the booking is unknown or not in a state the callback acts on, the whole
store is unchanged. -/
theorem payment_callbacks_never_raise (s : Store) (b : Nat) :
    (confirmPayment s b).2 = "OK" ∧ (failPayment s b).2 = "OK" ∧
    (mapGet s.bookings b = none →
      (confirmPayment s b).1 = s ∧ (failPayment s b).1 = s) ∧
    (∀ bk, mapGet s.bookings b = some bk → bk.status ≠ .payment_initiated →
      (confirmPayment s b).1 = s) ∧
    (∀ bk, mapGet s.bookings b = some bk →
      bk.status = .confirmed ∨ bk.status = .cancelled →
      (failPayment s b).1 = s) := by
  refine ⟨?_, ?_, ?_, ?_, ?_⟩
  · rw [confirmPayment]
    split
    · rfl
    · split <;> rfl
  · rw [failPayment]
    split
    · rfl
    · split
      · rfl
      · split <;> rfl
  · intro hnone
    constructor
    · rw [confirmPayment, hnone]
    · rw [failPayment, hnone]
  · intro bk hbk hne
    rw [confirmPayment, hbk]
    simp only [if_pos hne]
  · intro bk hbk hor
    simp only [failPayment, hbk]
    rcases hor with h' | h'
    · rw [if_pos h']
    · by_cases h2 : bk.status = BookingStatus.confirmed
      · rw [if_pos h2]
      · rw [if_neg h2, if_pos h']

section CallbackHelpers

theorem confirmPayment_none {s : Store} {b : Nat}
    (h : mapGet s.bookings b = none) : (confirmPayment s b).1 = s := by
  rw [confirmPayment, h]

theorem confirmPayment_skip {s : Store} {b : Nat} {bk : Booking}
    (hbk : mapGet s.bookings b = some bk)
    (h : bk.status ≠ .payment_initiated) : (confirmPayment s b).1 = s := by
  simp only [confirmPayment, hbk, if_pos h]

theorem confirmPayment_acts {s : Store} {b : Nat} {bk : Booking}
    (hbk : mapGet s.bookings b = some bk)
    (hp : bk.status = .payment_initiated) :
    (confirmPayment s b).1 =
      ((mapGet s.bookingSeats b).getD []).foldl markSold
        { s with bookings := mapSet s.bookings b { bk with status := .confirmed } } := by
  simp only [confirmPayment, hbk]
  rw [if_neg (fun hc => hc hp)]

theorem failPayment_none {s : Store} {b : Nat}
    (h : mapGet s.bookings b = none) : (failPayment s b).1 = s := by
  rw [failPayment, h]

theorem failPayment_skip {s : Store} {b : Nat} {bk : Booking}
    (hbk : mapGet s.bookings b = some bk)
    (h : bk.status = .confirmed ∨ bk.status = .cancelled) :
    (failPayment s b).1 = s := by
  simp only [failPayment, hbk]
  rcases h with h' | h'
  · rw [if_pos h']
  · by_cases h2 : bk.status = .confirmed
    · rw [if_pos h2]
    · rw [if_neg h2, if_pos h']

theorem failPayment_acts {s : Store} {b : Nat} {bk : Booking}
    (hbk : mapGet s.bookings b = some bk)
    (h1 : bk.status ≠ .confirmed) (h2 : bk.status ≠ .cancelled) :
    (failPayment s b).1 =
      ((mapGet s.bookingSeats b).getD []).foldl releaseSeatInternal
        { s with bookings := mapSet s.bookings b { bk with status := .cancelled } } := by
  simp only [failPayment, hbk]
  rw [if_neg h1, if_neg h2]

end CallbackHelpers

/-- C3.  Callback idempotence: `confirmPayment` twice equals once,
`failPayment` twice equals once, and `failPayment` after a `confirmPayment`
that moved the booking from `payment_initiated` to `confirmed` changes
nothing, leaving the booking `confirmed` and all its held seats `SOLD`. -/
theorem confirm_fail_idempotent (s : Store) (b : Nat) :
    (confirmPayment (confirmPayment s b).1 b).1 = (confirmPayment s b).1 ∧
    (failPayment (failPayment s b).1 b).1 = (failPayment s b).1 ∧
    (∀ bk, mapGet s.bookings b = some bk →
      bk.status = .payment_initiated →
        (failPayment (confirmPayment s b).1 b).1 = (confirmPayment s b).1 ∧
        mapGet (confirmPayment s b).1.bookings b =
          some { bk with status := .confirmed } ∧
        ∀ sid ∈ (mapGet s.bookingSeats b).getD [],
          ∀ st ∈ mapGet (confirmPayment s b).1.seats sid,
            st.status = .SOLD) := by
  have hconf : ∀ bk, mapGet s.bookings b = some bk →
      bk.status = .payment_initiated →
      mapGet (confirmPayment s b).1.bookings b =
        some { bk with status := .confirmed } := by
    intro bk hbk hp
    rw [confirmPayment_acts hbk hp, foldl_markSold_bookings,
      mapGet_mapSet_self]
  refine ⟨?_, ?_, ?_⟩
  · rcases hbk : mapGet s.bookings b with _ | bk
    · rw [confirmPayment_none hbk, confirmPayment_none hbk]
    · by_cases hp : bk.status = .payment_initiated
      · exact confirmPayment_skip (hconf bk hbk hp) (by intro hc; cases hc)
      · rw [confirmPayment_skip hbk hp, confirmPayment_skip hbk hp]
  · rcases hbk : mapGet s.bookings b with _ | bk
    · rw [failPayment_none hbk, failPayment_none hbk]
    · by_cases h1 : bk.status = .confirmed ∨ bk.status = .cancelled
      · rw [failPayment_skip hbk h1, failPayment_skip hbk h1]
      · push_neg at h1
        have hb2 : mapGet (failPayment s b).1.bookings b =
            some { bk with status := .cancelled } := by
          rw [failPayment_acts hbk h1.1 h1.2, foldl_release_bookings,
            mapGet_mapSet_self]
        exact failPayment_skip hb2 (Or.inr rfl)
  · intro bk hbk hp
    refine ⟨failPayment_skip (hconf bk hbk hp) (Or.inl rfl), hconf bk hbk hp, ?_⟩
    intro sid hsid st hst
    rw [confirmPayment_acts hbk hp] at hst
    exact foldl_markSold_sold hsid st hst

/-- A small concrete store: one event, one `payment_initiated` booking
holding one RESERVED seat. -/
def c3store : Store :=
  { events := [(1, { id := 1, title := "Concert", external := false })],
    bookings := [(1, { id := 1, event_id := 1,
                       status := .payment_initiated })],
    seats := [(1, { id := 1, row := 1, number := 1, status := .RESERVED,
                    price := "10.00", event_id := 1 })],
    bookingSeats := [(1, [1])],
    eventSeats := [(1, [1])],
    nextEventId := 2, nextBookingId := 2, nextSeatId := 2,
    seatTimeouts := [] }

/-- C3 witness: the idempotence consequences at a concrete store whose
booking is `payment_initiated`. -/
theorem confirm_fail_idempotent_witness :
    (failPayment (confirmPayment c3store 1).1 1).1 =
      (confirmPayment c3store 1).1 ∧
    mapGet (confirmPayment c3store 1).1.bookings 1 =
      some { id := 1, event_id := 1, status := .confirmed } ∧
    ∀ st ∈ mapGet (confirmPayment c3store 1).1.seats 1,
      st.status = .SOLD := by
  obtain ⟨-, -, h3⟩ := confirm_fail_idempotent c3store 1
  obtain ⟨a, b2, c⟩ := h3 { id := 1, event_id := 1, status := .payment_initiated } rfl rfl
  exact ⟨a, b2, c 1 (by decide)⟩

section SelectSeatEquations

variable {s : Store} {b sid : Nat} {bk : Booking} {st : Seat}

theorem selectSeat_eq_no_booking (h : mapGet s.bookings b = none) :
    selectSeat s b sid = .error .BookingNotFound := by
  rw [selectSeat, h]

theorem selectSeat_eq_no_seat (hbk : mapGet s.bookings b = some bk)
    (hst : mapGet s.seats sid = none) :
    selectSeat s b sid = .error .SeatNotFound := by
  simp only [selectSeat, hbk, hst]

theorem selectSeat_eq_terminal (hbk : mapGet s.bookings b = some bk)
    (hst : mapGet s.seats sid = some st)
    (hterm : bk.status = .cancelled ∨ bk.status = .confirmed) :
    selectSeat s b sid = .error .FailedAddSeat := by
  simp only [selectSeat, hbk, hst, if_pos hterm]

theorem selectSeat_eq_wrong_event (hbk : mapGet s.bookings b = some bk)
    (hst : mapGet s.seats sid = some st)
    (hterm : ¬(bk.status = .cancelled ∨ bk.status = .confirmed))
    (hev : st.event_id ≠ bk.event_id) :
    selectSeat s b sid = .error .SeatWrongEvent := by
  simp only [selectSeat, hbk, hst, if_neg hterm, if_pos hev]

theorem selectSeat_eq_not_free (hbk : mapGet s.bookings b = some bk)
    (hst : mapGet s.seats sid = some st)
    (hterm : ¬(bk.status = .cancelled ∨ bk.status = .confirmed))
    (hev : st.event_id = bk.event_id) (hnf : st.status ≠ .FREE) :
    selectSeat s b sid = .error .FailedAddSeat := by
  simp only [selectSeat, hbk, hst, if_neg hterm,
    if_neg (fun hc : st.event_id ≠ bk.event_id => hc hev), if_pos hnf]

theorem selectSeat_eq_ok (hbk : mapGet s.bookings b = some bk)
    (hst : mapGet s.seats sid = some st)
    (hterm : ¬(bk.status = .cancelled ∨ bk.status = .confirmed))
    (hev : st.event_id = bk.event_id) (hfree : st.status = .FREE) :
    selectSeat s b sid = .ok
      ({ s with
          seats := mapSet s.seats sid { st with status := .RESERVED },
          bookingSeats := bsAdd s.bookingSeats b sid,
          seatTimeouts := setAdd s.seatTimeouts sid },
        "Seat successfully added to booking") := by
  simp only [selectSeat, hbk, hst, if_neg hterm,
    if_neg (fun hc : st.event_id ≠ bk.event_id => hc hev),
    if_neg (fun hc : st.status ≠ .FREE => hc hfree)]

end SelectSeatEquations

/-- C6.  `selectSeat` raises-iff contract: NotFound exactly when the booking
or the seat is unknown; Conflict exactly when (both known and) the booking
is terminal, the seat belongs to another event, or the seat is not FREE; in
every other case — a `payment_initiated` booking included — it succeeds,
turns the seat RESERVED, adds it to the booking's held set and registers a
reservation timer. -/
theorem selectSeat_raises_iff {s : Store} (wf : WF s) (b sid : Nat) :
    ((∃ e, selectSeat s b sid = .error e ∧ e.isNotFound = true) ↔
      mapGet s.bookings b = none ∨ mapGet s.seats sid = none) ∧
    ((∃ e, selectSeat s b sid = .error e ∧ e.isConflict = true) ↔
      ∃ bk st, mapGet s.bookings b = some bk ∧ mapGet s.seats sid = some st ∧
        (bk.status = .cancelled ∨ bk.status = .confirmed ∨
          st.event_id ≠ bk.event_id ∨ st.status ≠ .FREE)) ∧
    ((∃ s' msg, selectSeat s b sid = .ok (s', msg)) ↔
      ∃ bk st, mapGet s.bookings b = some bk ∧ mapGet s.seats sid = some st ∧
        bk.status ≠ .cancelled ∧ bk.status ≠ .confirmed ∧
        st.event_id = bk.event_id ∧ st.status = .FREE) ∧
    (∀ s' msg, selectSeat s b sid = .ok (s', msg) →
      (∃ st, mapGet s.seats sid = some st ∧
        mapGet s'.seats sid = some { st with status := .RESERVED }) ∧
      sid ∈ (mapGet s'.bookingSeats b).getD [] ∧ sid ∈ s'.seatTimeouts) := by
  refine ⟨?_, ?_, ?_, ?_⟩
  · constructor
    · rintro ⟨e, he, hnf⟩
      rcases hbk : mapGet s.bookings b with _ | bk
      · exact Or.inl rfl
      rcases hst : mapGet s.seats sid with _ | st
      · exact Or.inr rfl
      exfalso
      by_cases hterm : bk.status = .cancelled ∨ bk.status = .confirmed
      · rw [selectSeat_eq_terminal hbk hst hterm] at he
        injection he with h'
        rw [← h'] at hnf
        cases hnf
      by_cases hev : st.event_id = bk.event_id
      · by_cases hfree : st.status = .FREE
        · rw [selectSeat_eq_ok hbk hst hterm hev hfree] at he
          cases he
        · rw [selectSeat_eq_not_free hbk hst hterm hev hfree] at he
          injection he with h'
          rw [← h'] at hnf
          cases hnf
      · rw [selectSeat_eq_wrong_event hbk hst hterm hev] at he
        injection he with h'
        rw [← h'] at hnf
        cases hnf
    · rintro (h | h)
      · exact ⟨.BookingNotFound, selectSeat_eq_no_booking h, rfl⟩
      · rcases hbk : mapGet s.bookings b with _ | bk
        · exact ⟨.BookingNotFound, selectSeat_eq_no_booking hbk, rfl⟩
        · exact ⟨.SeatNotFound, selectSeat_eq_no_seat hbk h, rfl⟩
  · constructor
    · rintro ⟨e, he, hcf⟩
      rcases hbk : mapGet s.bookings b with _ | bk
      · rw [selectSeat_eq_no_booking hbk] at he
        injection he with h'
        rw [← h'] at hcf
        cases hcf
      rcases hst : mapGet s.seats sid with _ | st
      · rw [selectSeat_eq_no_seat hbk hst] at he
        injection he with h'
        rw [← h'] at hcf
        cases hcf
      refine ⟨bk, st, rfl, rfl, ?_⟩
      by_cases hterm : bk.status = .cancelled ∨ bk.status = .confirmed
      · rcases hterm with h' | h'
        · exact Or.inl h'
        · exact Or.inr (Or.inl h')
      by_cases hev : st.event_id = bk.event_id
      · by_cases hfree : st.status = .FREE
        · rw [selectSeat_eq_ok hbk hst hterm hev hfree] at he
          cases he
        · exact Or.inr (Or.inr (Or.inr hfree))
      · exact Or.inr (Or.inr (Or.inl hev))
    · rintro ⟨bk, st, hbk, hst, hor⟩
      by_cases hterm : bk.status = .cancelled ∨ bk.status = .confirmed
      · exact ⟨.FailedAddSeat, selectSeat_eq_terminal hbk hst hterm, rfl⟩
      by_cases hev : st.event_id = bk.event_id
      · have hnf : st.status ≠ .FREE := by
          rcases hor with h' | h' | h' | h'
          · exact absurd (Or.inl h') hterm
          · exact absurd (Or.inr h') hterm
          · exact absurd hev h'
          · exact h'
        exact ⟨.FailedAddSeat, selectSeat_eq_not_free hbk hst hterm hev hnf, rfl⟩
      · exact ⟨.SeatWrongEvent, selectSeat_eq_wrong_event hbk hst hterm hev, rfl⟩
  · constructor
    · rintro ⟨s', msg, hok⟩
      obtain ⟨bk, st, hbk, hst, h1, h2, h3, h4, -, -⟩ := selectSeat_ok hok
      exact ⟨bk, st, hbk, hst, h1, h2, h3, h4⟩
    · rintro ⟨bk, st, hbk, hst, h1, h2, h3, h4⟩
      refine ⟨_, _, selectSeat_eq_ok hbk hst ?_ h3 h4⟩
      rintro (h | h)
      · exact h1 h
      · exact h2 h
  · intro s' msg hok
    obtain ⟨bk, st, hbk, hst, -, -, -, -, rfl, -⟩ := selectSeat_ok hok
    refine ⟨⟨st, hst, mapGet_mapSet_self _ _ _⟩, ?_, self_mem_setAdd _ _⟩
    have hbs : mapHas s.bookingSeats b = true :=
      wf.booking_bs (b, bk) (mapGet_mem hbk)
    obtain ⟨l, hl⟩ := Option.isSome_iff_exists.1 (by rw [← mapHas]; exact hbs)
    have : bsAdd s.bookingSeats b sid = mapSet s.bookingSeats b (setAdd l sid) := by
      rw [bsAdd, hl]
    show sid ∈ (mapGet (bsAdd s.bookingSeats b sid) b).getD []
    rw [this, mapGet_mapSet_self]
    exact self_mem_setAdd l sid

section GetSeatsEquations

variable {s : Store} {e page pageSize : Nat}

theorem getSeats_eq_notfound (h : mapHas s.events e = false) :
    getSeats s e page pageSize = .error .EventNotFound := by
  rw [getSeats, if_neg (by rw [h]; exact Bool.false_ne_true)]

theorem getSeats_eq_invalid (hh : mapHas s.events e = true)
    (hinv : page < 1 ∨ pageSize < 1 ∨ pageSize > 20) :
    getSeats s e page pageSize = .error .InvalidPagination := by
  rw [getSeats, if_pos hh, if_pos hinv]

theorem getSeats_eq_ok (hh : mapHas s.events e = true)
    (hinv : ¬(page < 1 ∨ pageSize < 1 ∨ pageSize > 20)) :
    getSeats s e page pageSize = .ok
      (((((mapGet s.eventSeats e).getD []).drop
          ((page - 1) * pageSize)).take pageSize).map
        (fun sid => (mapGet s.seats sid).map seatView)) := by
  rw [getSeats, if_pos hh, if_neg hinv]
  show (if ((mapGet s.eventSeats e).getD []).length ≤ (page - 1) * pageSize
      then (Except.ok [] : Except Err (List (Option SeatView)))
      else Except.ok
        (((((mapGet s.eventSeats e).getD []).drop
            ((page - 1) * pageSize)).take pageSize).map
          (fun sid => (mapGet s.seats sid).map seatView))) =
    Except.ok
      (((((mapGet s.eventSeats e).getD []).drop
          ((page - 1) * pageSize)).take pageSize).map
        (fun sid => (mapGet s.seats sid).map seatView))
  split
  next hle =>
    rw [List.drop_eq_nil_of_le hle, List.take_nil, List.map_nil]
  next => rfl

theorem getSeats_ok_inv {res : List (Option SeatView)}
    (h : getSeats s e page pageSize = .ok res) :
    mapHas s.events e = true ∧ ¬(page < 1 ∨ pageSize < 1 ∨ pageSize > 20) ∧
      res = ((((mapGet s.eventSeats e).getD []).drop
          ((page - 1) * pageSize)).take pageSize).map
        (fun sid => (mapGet s.seats sid).map seatView) := by
  by_cases hh : mapHas s.events e
  · by_cases hinv : page < 1 ∨ pageSize < 1 ∨ pageSize > 20
    · rw [getSeats_eq_invalid hh hinv] at h
      cases h
    · rw [getSeats_eq_ok hh hinv] at h
      injection h with h'
      exact ⟨hh, hinv, h'.symm⟩
  · rw [Bool.not_eq_true] at hh
    rw [getSeats_eq_notfound hh] at h
    cases h

theorem slices_disjoint {ids : List Nat} {P p1 p2 : Nat} (hnd : ids.Nodup)
    (h1 : 1 ≤ p1) (hlt : p1 < p2) {x : Nat}
    (hx1 : x ∈ (ids.drop ((p1 - 1) * P)).take P)
    (hx2 : x ∈ (ids.drop ((p2 - 1) * P)).take P) : False := by
  have e1 : (ids.drop ((p1 - 1) * P)).take P =
      (ids.take ((p1 - 1) * P + P)).drop ((p1 - 1) * P) := by
    rw [List.drop_take]
    congr 1
    omega
  have hsub1 : x ∈ ids.take ((p1 - 1) * P + P) := by
    rw [e1] at hx1
    exact List.drop_subset _ _ hx1
  have hsub2 : x ∈ ids.drop ((p2 - 1) * P) := List.take_subset _ _ hx2
  have hle : (p1 - 1) * P + P ≤ (p2 - 1) * P := by
    have h2 : (p1 - 1) * P + P = p1 * P := by
      have h3 : p1 - 1 + 1 = p1 := Nat.sub_add_cancel h1
      rw [← h3, Nat.succ_mul, h3]
    rw [h2]
    exact Nat.mul_le_mul_right P (by omega)
  exact List.disjoint_take_drop hnd hle hsub1 hsub2

end GetSeatsEquations

/-- C8.  `getSeats` pagination contract: NotFound iff the event is unknown;
for a known event, InvalidArgument iff `page < 1` or `pageSize` is outside
`[1, 20]`; otherwise the page-th slice of the event's seats in creation
order, with any out-of-range offset — the page after the last in
particular — yielding an empty list; identical calls agree, and no seat id
appears on two different pages of the same `pageSize`. -/
theorem getSeats_pagination {s : Store} (wf : WF s) (e page pageSize : Nat) :
    (getSeats s e page pageSize = .error .EventNotFound ↔
      mapGet s.events e = none) ∧
    (mapGet s.events e ≠ none →
      (getSeats s e page pageSize = .error .InvalidPagination ↔
        (page < 1 ∨ pageSize < 1 ∨ pageSize > 20))) ∧
    (mapGet s.events e ≠ none → 1 ≤ page → 1 ≤ pageSize → pageSize ≤ 20 →
      getSeats s e page pageSize = .ok
        (((((mapGet s.eventSeats e).getD []).drop
            ((page - 1) * pageSize)).take pageSize).map
          (fun sid => (mapGet s.seats sid).map seatView))) ∧
    (mapGet s.events e ≠ none → 1 ≤ page → 1 ≤ pageSize → pageSize ≤ 20 →
      ((mapGet s.eventSeats e).getD []).length ≤ (page - 1) * pageSize →
      getSeats s e page pageSize = .ok []) ∧
    (mapGet s.events e ≠ none → 1 ≤ pageSize → pageSize ≤ 20 →
      getSeats s e
        ((((mapGet s.eventSeats e).getD []).length + pageSize - 1) / pageSize
          + 1) pageSize = .ok []) ∧
    (getSeats s e page pageSize = getSeats s e page pageSize) ∧
    (∀ p2 res res2, page ≠ p2 →
      getSeats s e page pageSize = .ok res →
      getSeats s e p2 pageSize = .ok res2 →
      ∀ ov ∈ res, ∀ ov2 ∈ res2, ∀ v ∈ ov, ∀ v2 ∈ ov2, v.id ≠ v2.id) := by
  have hhas : mapGet s.events e ≠ none → mapHas s.events e = true := by
    intro h
    rcases hq : mapGet s.events e with _ | ev
    · exact absurd hq h
    · rw [mapHas, hq]
      rfl
  refine ⟨?_, ?_, ?_, ?_, ?_, rfl, ?_⟩
  · constructor
    · intro hA
      rcases hev : mapGet s.events e with _ | ev
      · rfl
      · exfalso
        have hh : mapHas s.events e = true := by rw [mapHas, hev]; rfl
        by_cases hinv : page < 1 ∨ pageSize < 1 ∨ pageSize > 20
        · rw [getSeats_eq_invalid hh hinv] at hA
          injection hA with h'
          cases h'
        · rw [getSeats_eq_ok hh hinv] at hA
          cases hA
    · intro h
      exact getSeats_eq_notfound (by rw [mapHas, h]; rfl)
  · intro hev
    constructor
    · intro hA
      by_cases hinv : page < 1 ∨ pageSize < 1 ∨ pageSize > 20
      · exact hinv
      · rw [getSeats_eq_ok (hhas hev) hinv] at hA
        cases hA
    · intro hinv
      exact getSeats_eq_invalid (hhas hev) hinv
  · intro hev h1 h2 h3
    exact getSeats_eq_ok (hhas hev) (by omega)
  · intro hev h1 h2 h3 hlen
    rw [getSeats_eq_ok (hhas hev) (by omega), List.drop_eq_nil_of_le hlen,
      List.take_nil, List.map_nil]
  · intro hev h2 h3
    have hceil : ((mapGet s.eventSeats e).getD []).length ≤
        ((((mapGet s.eventSeats e).getD []).length + pageSize - 1) / pageSize
          + 1 - 1) * pageSize := by
      have hdm := Nat.div_add_mod
        (((mapGet s.eventSeats e).getD []).length + pageSize - 1) pageSize
      have hmod := Nat.mod_lt
        (((mapGet s.eventSeats e).getD []).length + pageSize - 1)
        (show 0 < pageSize by omega)
      rw [Nat.mul_comm] at hdm
      simp only [Nat.add_sub_cancel]
      omega
    have hval : ¬((((mapGet s.eventSeats e).getD []).length + pageSize - 1) /
        pageSize + 1 < 1 ∨ pageSize < 1 ∨ pageSize > 20) := by
      intro hc
      rcases hc with h' | h' | h'
      · exact Nat.succ_ne_zero _ (Nat.lt_one_iff.1 h')
      · exact absurd h' (Nat.not_lt.2 h2)
      · exact absurd h' (Nat.not_lt.2 h3)
    rw [getSeats_eq_ok (hhas hev) hval, List.drop_eq_nil_of_le hceil,
      List.take_nil, List.map_nil]
  · intro p2 res res2 hne hok hok2
    obtain ⟨-, hinv, rfl⟩ := getSeats_ok_inv hok
    obtain ⟨-, hinv2, rfl⟩ := getSeats_ok_inv hok2
    intro ov hov ov2 hov2 v hv v2 hv2
    obtain ⟨sid1, hsid1, rfl⟩ := List.mem_map.1 hov
    obtain ⟨sid2, hsid2, rfl⟩ := List.mem_map.1 hov2
    have hv' : ∃ st1, mapGet s.seats sid1 = some st1 ∧ v = seatView st1 := by
      rcases hq : mapGet s.seats sid1 with _ | st1
      · rw [Option.mem_def, hq] at hv
        cases hv
      · rw [Option.mem_def, hq, Option.map_some'] at hv
        injection hv with h'
        exact ⟨st1, rfl, h'.symm⟩
    have hv2' : ∃ st2, mapGet s.seats sid2 = some st2 ∧ v2 = seatView st2 := by
      rcases hq : mapGet s.seats sid2 with _ | st2
      · rw [Option.mem_def, hq] at hv2
        cases hv2
      · rw [Option.mem_def, hq, Option.map_some'] at hv2
        injection hv2 with h'
        exact ⟨st2, rfl, h'.symm⟩
    obtain ⟨st1, hst1, rfl⟩ := hv'
    obtain ⟨st2, hst2, rfl⟩ := hv2'
    have hid1 : (seatView st1).id = sid1 := wf.seat_key (sid1, st1) (mapGet_mem hst1)
    have hid2 : (seatView st2).id = sid2 := wf.seat_key (sid2, st2) (mapGet_mem hst2)
    rw [hid1, hid2]
    intro hc
    subst hc
    have hnd : ((mapGet s.eventSeats e).getD []).Nodup := by
      rcases hq : mapGet s.eventSeats e with _ | l
      · exact List.nodup_nil
      · exact wf.eventSeats_nodup (e, l) (mapGet_mem hq)
    rcases Nat.lt_or_ge page p2 with hlt | hge
    · exact slices_disjoint hnd (by omega) hlt hsid1 hsid2
    · have hlt2 : p2 < page := by omega
      exact slices_disjoint hnd (by omega) hlt2 hsid2 hsid1

/-- A small concrete store: one event with two FREE seats and two `booked`
bookings holding nothing. -/
def demo : Store :=
  { events := [(1, { id := 1, title := "Concert", external := false })],
    bookings := [(1, { id := 1, event_id := 1, status := .booked }),
                 (2, { id := 2, event_id := 1, status := .booked })],
    seats := [(1, { id := 1, row := 1, number := 1, status := .FREE,
                    price := "10.00", event_id := 1 }),
              (2, { id := 2, row := 1, number := 2, status := .FREE,
                    price := "10.00", event_id := 1 })],
    bookingSeats := [(1, []), (2, [])],
    eventSeats := [(1, [1, 2])],
    nextEventId := 2, nextBookingId := 3, nextSeatId := 3,
    seatTimeouts := [] }

theorem WF_demo : WF demo := by
  constructor <;> decide

/-- C6 witness: the contract evaluated on the small demo store. -/
theorem selectSeat_raises_iff_witness :
    (∃ s' msg, selectSeat demo 1 1 = .ok (s', msg)) ∧
    (∃ e, selectSeat demo 3 1 = .error e ∧ e.isNotFound = true) ∧
    (∃ e, selectSeat demo 1 5 = .error e ∧ e.isNotFound = true) := by
  refine ⟨((selectSeat_raises_iff WF_demo 1 1).2.2.1).2 ?_, ?_, ?_⟩
  · exact ⟨{ id := 1, event_id := 1, status := .booked },
      { id := 1, row := 1, number := 1, status := .FREE, price := "10.00",
        event_id := 1 }, by decide, by decide, by decide, by decide,
      by decide, by decide⟩
  · exact ((selectSeat_raises_iff WF_demo 3 1).1).2 (Or.inl (by decide))
  · exact ((selectSeat_raises_iff WF_demo 1 5).1).2 (Or.inr (by decide))

/-- C8 witness: pagination on the demo store (2 seats): page 1 of size 1,
the empty page past the end, and the InvalidArgument bounds. -/
theorem getSeats_pagination_witness :
    getSeats demo 1 1 1 =
      .ok [some { id := 1, row := 1, number := 1, status := .FREE,
                  price := "10.00" }] ∧
    getSeats demo 1 3 1 = .ok [] ∧
    getSeats demo 1 1 0 = .error .InvalidPagination ∧
    getSeats demo 1 1 21 = .error .InvalidPagination ∧
    getSeats demo 2 1 1 = .error .EventNotFound := by
  refine ⟨?_, ?_, ?_, ?_, ?_⟩
  · have h := (getSeats_pagination WF_demo 1 1 1).2.2.1
      (by decide) (by decide) (by decide) (by decide)
    rw [h]
    decide
  · exact (getSeats_pagination WF_demo 1 3 1).2.2.2.1
      (by decide) (by decide) (by decide) (by decide) (by decide)
  · exact ((getSeats_pagination WF_demo 1 1 0).2.1 (by decide)).2
      (by decide)
  · exact ((getSeats_pagination WF_demo 1 1 21).2.1 (by decide)).2
      (by decide)
  · exact (getSeats_pagination WF_demo 2 1 1).1.2 (by decide)

section FrameHelpers

/-- Equality of every seat field except `status`. -/
def FieldsEq (a b : Seat) : Prop :=
  a.id = b.id ∧ a.row = b.row ∧ a.number = b.number ∧ a.price = b.price ∧
    a.event_id = b.event_id

theorem FieldsEq.refl (a : Seat) : FieldsEq a a := ⟨rfl, rfl, rfl, rfl, rfl⟩

theorem FieldsEq.trans {a b c : Seat} (h1 : FieldsEq a b) (h2 : FieldsEq b c) :
    FieldsEq a c := by
  obtain ⟨x1, x2, x3, x4, x5⟩ := h1
  obtain ⟨y1, y2, y3, y4, y5⟩ := h2
  exact ⟨x1.trans y1, x2.trans y2, x3.trans y3, x4.trans y4, x5.trans y5⟩

theorem releaseSeatInternal_fields {s : Store} {sid : Nat} (x : Nat)
    {st : Seat} (h : mapGet s.seats sid = some st) :
    ∃ st', mapGet (releaseSeatInternal s x).seats sid = some st' ∧
      FieldsEq st' st := by
  rw [releaseSeatInternal]
  split
  next st0 hst0 =>
    split
    · by_cases hx : sid = x
      · subst hx
        rw [h] at hst0
        injection hst0 with h2
        subst h2
        exact ⟨{ st with status := .FREE }, mapGet_mapSet_self _ _ _,
          FieldsEq.refl _⟩
      · exact ⟨st, by rw [mapGet_mapSet_ne _ _ hx]; exact h, FieldsEq.refl _⟩
    · exact ⟨st, h, FieldsEq.refl _⟩
  next => exact ⟨st, h, FieldsEq.refl _⟩

theorem markSold_fields {s : Store} {sid : Nat} (x : Nat) {st : Seat}
    (h : mapGet s.seats sid = some st) :
    ∃ st', mapGet (markSold s x).seats sid = some st' ∧ FieldsEq st' st := by
  rw [markSold]
  split
  next st0 hst0 =>
    by_cases hx : sid = x
    · subst hx
      rw [h] at hst0
      injection hst0 with h2
      subst h2
      exact ⟨{ st with status := .SOLD }, mapGet_mapSet_self _ _ _,
        FieldsEq.refl _⟩
    · exact ⟨st, by rw [mapGet_mapSet_ne _ _ hx]; exact h, FieldsEq.refl _⟩
  next => exact ⟨st, h, FieldsEq.refl _⟩

theorem foldl_release_fields {L : List Nat} {s : Store} {sid : Nat}
    {st : Seat} (h : mapGet s.seats sid = some st) :
    ∃ st', mapGet (L.foldl releaseSeatInternal s).seats sid = some st' ∧
      FieldsEq st' st := by
  induction L generalizing s st with
  | nil => exact ⟨st, h, FieldsEq.refl _⟩
  | cons a L' ih =>
    rw [List.foldl_cons]
    obtain ⟨st1, h1, hf1⟩ := releaseSeatInternal_fields a h
    obtain ⟨st2, h2, hf2⟩ := ih h1
    exact ⟨st2, h2, hf2.trans hf1⟩

theorem foldl_markSold_fields {L : List Nat} {s : Store} {sid : Nat}
    {st : Seat} (h : mapGet s.seats sid = some st) :
    ∃ st', mapGet (L.foldl markSold s).seats sid = some st' ∧
      FieldsEq st' st := by
  induction L generalizing s st with
  | nil => exact ⟨st, h, FieldsEq.refl _⟩
  | cons a L' ih =>
    rw [List.foldl_cons]
    obtain ⟨st1, h1, hf1⟩ := markSold_fields a h
    obtain ⟨st2, h2, hf2⟩ := ih h1
    exact ⟨st2, h2, hf2.trans hf1⟩

/-- Every prices-are-`"10.00"` store stays so under `releaseSeatInternal`. -/
theorem releaseSeatInternal_prices {s : Store}
    (h : ∀ p ∈ s.seats, (p : Nat × Seat).2.price = "10.00") (x : Nat) :
    ∀ p ∈ (releaseSeatInternal s x).seats, (p : Nat × Seat).2.price = "10.00" := by
  rw [releaseSeatInternal]
  split
  next st0 hst0 =>
    split
    · intro p hp
      rcases mem_mapSet hp with h' | h'
      · exact h p h'
      · rw [h']
        exact h (x, st0) (mapGet_mem hst0)
    · exact h
  next => exact h

theorem markSold_prices {s : Store}
    (h : ∀ p ∈ s.seats, (p : Nat × Seat).2.price = "10.00") (x : Nat) :
    ∀ p ∈ (markSold s x).seats, (p : Nat × Seat).2.price = "10.00" := by
  rw [markSold]
  split
  next st0 hst0 =>
    intro p hp
    rcases mem_mapSet hp with h' | h'
    · exact h p h'
    · rw [h']
      exact h (x, st0) (mapGet_mem hst0)
  next => exact h

theorem foldl_release_prices {L : List Nat} {s : Store}
    (h : ∀ p ∈ s.seats, (p : Nat × Seat).2.price = "10.00") :
    ∀ p ∈ (L.foldl releaseSeatInternal s).seats,
      (p : Nat × Seat).2.price = "10.00" := by
  induction L generalizing s with
  | nil => exact h
  | cons a L' ih =>
    rw [List.foldl_cons]
    exact ih (releaseSeatInternal_prices h a)

theorem foldl_markSold_prices {L : List Nat} {s : Store}
    (h : ∀ p ∈ s.seats, (p : Nat × Seat).2.price = "10.00") :
    ∀ p ∈ (L.foldl markSold s).seats, (p : Nat × Seat).2.price = "10.00" := by
  induction L generalizing s with
  | nil => exact h
  | cons a L' ih =>
    rw [List.foldl_cons]
    exact ih (markSold_prices h a)

end FrameHelpers

/-- C10.  Seat field immutability: in any well-formed store, every
operation keeps every existing seat present and preserves its `id`, `row`,
`number`, `price` and `event_id` (only `status` can change); and in every
reachable state every seat's price is the string `"10.00"`, as fixed at
creation. -/
theorem seat_fields_immutable :
    (∀ (s : Store), WF s → ∀ (op : Op) (sid : Nat) (st : Seat),
      mapGet s.seats sid = some st → ∃ st',
        mapGet (applyOp s op).seats sid = some st' ∧
        st'.id = st.id ∧ st'.row = st.row ∧ st'.number = st.number ∧
        st'.price = st.price ∧ st'.event_id = st.event_id) ∧
    (∀ s : Store, Reachable s →
      ∀ p ∈ s.seats, (p : Nat × Seat).2.price = "10.00") := by
  constructor
  · intro s wf op sid st h
    cases op with
    | createEvent t e =>
      refine ⟨st, ?_, rfl, rfl, rfl, rfl, rfl⟩
      show mapGet (createEvent s t e).1.seats sid = some st
      rw [createEvent_seats t e wf.seats_lt]
      exact mapGet_append_left h
    | createBooking eid =>
      rw [applyOp]
      split
      next s' r heq =>
        obtain ⟨-, -, rfl⟩ := createBooking_ok heq
        exact ⟨st, h, rfl, rfl, rfl, rfl, rfl⟩
      next => exact ⟨st, h, rfl, rfl, rfl, rfl, rfl⟩
    | selectSeat b sid2 =>
      rw [applyOp]
      split
      next s' r heq =>
        obtain ⟨bk, st0, hbk, hst0, -, -, -, -, rfl, -⟩ := selectSeat_ok heq
        by_cases hx : sid = sid2
        · subst hx
          rw [h] at hst0
          injection hst0 with h2
          subst h2
          exact ⟨{ st with status := .RESERVED },
            mapGet_mapSet_self _ _ _, rfl, rfl, rfl, rfl, rfl⟩
        · exact ⟨st, by
            show mapGet (mapSet s.seats sid2 _) sid = some st
            rw [mapGet_mapSet_ne _ _ hx]; exact h, rfl, rfl, rfl, rfl, rfl⟩
      next => exact ⟨st, h, rfl, rfl, rfl, rfl, rfl⟩
    | releaseSeat sid2 =>
      rw [applyOp]
      split
      next s' r heq =>
        rw [releaseSeat] at heq
        split at heq
        · cases heq
        · split at heq
          · cases heq
          · injection heq with h1
            injection h1 with h2 h3
            rw [← h2]
            obtain ⟨st', h', hf⟩ := releaseSeatInternal_fields sid2 h
            exact ⟨st', h', hf.1, hf.2.1, hf.2.2.1, hf.2.2.2.1, hf.2.2.2.2⟩
      next => exact ⟨st, h, rfl, rfl, rfl, rfl, rfl⟩
    | initiatePayment b =>
      rw [applyOp]
      split
      next s' r heq =>
        obtain ⟨bk, hbk, -, rfl, -⟩ := initiatePayment_ok heq
        exact ⟨st, h, rfl, rfl, rfl, rfl, rfl⟩
      next => exact ⟨st, h, rfl, rfl, rfl, rfl, rfl⟩
    | cancelBooking b =>
      rw [applyOp]
      split
      next s' r heq =>
        rw [cancelBooking] at heq
        split at heq
        · cases heq
        next bk hbk =>
          split at heq
          · injection heq with h1
            injection h1 with h2 h3
            rw [← h2]
            exact ⟨st, h, rfl, rfl, rfl, rfl, rfl⟩
          · injection heq with h1
            injection h1 with h2 h3
            rw [← h2]
            obtain ⟨st', h', hf⟩ := foldl_release_fields
              (show mapGet ({ s with bookings := mapSet s.bookings b { bk with status := .cancelled } } : Store).seats sid = some st from h)
            exact ⟨st', h', hf.1, hf.2.1, hf.2.2.1, hf.2.2.2.1, hf.2.2.2.2⟩
      next => exact ⟨st, h, rfl, rfl, rfl, rfl, rfl⟩
    | confirmPayment b =>
      rw [applyOp, confirmPayment]
      split
      · exact ⟨st, h, rfl, rfl, rfl, rfl, rfl⟩
      next bk hbk =>
        split
        · exact ⟨st, h, rfl, rfl, rfl, rfl, rfl⟩
        · obtain ⟨st', h', hf⟩ := foldl_markSold_fields
            (show mapGet ({ s with bookings := mapSet s.bookings b { bk with status := .confirmed } } : Store).seats sid = some st from h)
          exact ⟨st', h', hf.1, hf.2.1, hf.2.2.1, hf.2.2.2.1, hf.2.2.2.2⟩
    | failPayment b =>
      rw [applyOp, failPayment]
      split
      · exact ⟨st, h, rfl, rfl, rfl, rfl, rfl⟩
      next bk hbk =>
        split
        · exact ⟨st, h, rfl, rfl, rfl, rfl, rfl⟩
        · split
          · exact ⟨st, h, rfl, rfl, rfl, rfl, rfl⟩
          · obtain ⟨st', h', hf⟩ := foldl_release_fields
              (show mapGet ({ s with bookings := mapSet s.bookings b { bk with status := .cancelled } } : Store).seats sid = some st from h)
            exact ⟨st', h', hf.1, hf.2.1, hf.2.2.1, hf.2.2.2.1, hf.2.2.2.2⟩
    | timerFire sid2 =>
      rw [applyOp]
      split
      · obtain ⟨st', h', hf⟩ := releaseSeatInternal_fields sid2 h
        exact ⟨st', h', hf.1, hf.2.1, hf.2.2.1, hf.2.2.2.1, hf.2.2.2.2⟩
      · exact ⟨st, h, rfl, rfl, rfl, rfl, rfl⟩
  · intro s hreach
    induction hreach with
    | init => intro p hp; cases hp
    | step s0 op hr ih =>
      have wf := hr.wf
      cases op with
      | createEvent t e =>
        intro p hp
        rw [show applyOp s0 (Op.createEvent t e) = (createEvent s0 t e).1
          from rfl, createEvent_seats t e wf.seats_lt] at hp
        rcases List.mem_append.1 hp with h' | h'
        · exact ih p h'
        · exact (genSeats_mem h').2.2.1
      | createBooking eid =>
        rw [applyOp]
        split
        next s' r heq =>
          obtain ⟨-, -, rfl⟩ := createBooking_ok heq
          exact ih
        next => exact ih
      | selectSeat b sid2 =>
        rw [applyOp]
        split
        next s' r heq =>
          obtain ⟨bk, st0, hbk, hst0, -, -, -, -, rfl, -⟩ := selectSeat_ok heq
          intro p hp
          rcases mem_mapSet hp with h' | h'
          · exact ih p h'
          · rw [h']
            exact ih (sid2, st0) (mapGet_mem hst0)
        next => exact ih
      | releaseSeat sid2 =>
        rw [applyOp]
        split
        next s' r heq =>
          rw [releaseSeat] at heq
          split at heq
          · cases heq
          · split at heq
            · cases heq
            · injection heq with h1
              injection h1 with h2 h3
              rw [← h2]
              exact releaseSeatInternal_prices ih sid2
        next => exact ih
      | initiatePayment b =>
        rw [applyOp]
        split
        next s' r heq =>
          obtain ⟨bk, hbk, -, rfl, -⟩ := initiatePayment_ok heq
          exact ih
        next => exact ih
      | cancelBooking b =>
        rw [applyOp]
        split
        next s' r heq =>
          rw [cancelBooking] at heq
          split at heq
          · cases heq
          next bk hbk =>
            split at heq
            · injection heq with h1
              injection h1 with h2 h3
              rw [← h2]
              exact ih
            · injection heq with h1
              injection h1 with h2 h3
              rw [← h2]
              exact foldl_release_prices ih
        next => exact ih
      | confirmPayment b =>
        rw [applyOp, confirmPayment]
        split
        · exact ih
        next bk hbk =>
          split
          · exact ih
          · exact foldl_markSold_prices ih
      | failPayment b =>
        rw [applyOp, failPayment]
        split
        · exact ih
        next bk hbk =>
          split
          · exact ih
          · split
            · exact ih
            · exact foldl_release_prices ih
      | timerFire sid2 =>
        rw [applyOp]
        split
        · exact releaseSeatInternal_prices ih sid2
        · exact ih

/-- C10 witness: a concrete operation on the demo store keeps the selected
seat's identity fields, and prices at the initial (reachable) store. -/
theorem seat_fields_immutable_witness :
    (∃ st', mapGet (applyOp demo (Op.selectSeat 1 1)).seats 1 = some st' ∧
      st'.id = 1 ∧ st'.row = 1 ∧ st'.number = 1 ∧ st'.price = "10.00" ∧
      st'.event_id = 1) ∧
    (∀ p ∈ Store.init.seats, (p : Nat × Seat).2.price = "10.00") := by
  constructor
  · obtain ⟨st', h', h1, h2, h3, h4, h5⟩ :=
      (seat_fields_immutable).1 demo WF_demo (Op.selectSeat 1 1) 1
        { id := 1, row := 1, number := 1, status := .FREE, price := "10.00",
          event_id := 1 } (by decide)
    exact ⟨st', h', h1, h2, h3, h4, h5⟩
  · exact (seat_fields_immutable).2 Store.init Reachable.init

/-- One `selectSeat` call in a batch run, recording its outcome
(`none` = success, `some e` = the thrown error). -/
def selectStep (sid : Nat) (acc : Store × List (Option Err)) (b : Nat) :
    Store × List (Option Err) :=
  match selectSeat acc.1 b sid with
  | .ok (s', _) => (s', acc.2 ++ [none])
  | .error e => (acc.1, acc.2 ++ [some e])

/-- A batch of `selectSeat(b, sid)` calls for the bookings `bs`, executed in
the given order. -/
def runSelects (s : Store) (bs : List Nat) (sid : Nat) :
    Store × List (Option Err) :=
  bs.foldl (selectStep sid) (s, [])

/-- C1.  Seat mutual exclusion: from a well-formed state, any batch of
`selectSeat` calls on one FREE seat by pairwise-distinct `booked` bookings
of the seat's event, executed in any order, yields exactly one success (the
first caller) and `Conflict` for all others; the seat ends RESERVED and is
held by exactly the successful booking. -/
theorem selectSeat_mutual_exclusion {s : Store} (wf : WF s) {e sid : Nat}
    {st : Seat} (hst : mapGet s.seats sid = some st)
    (hfree : st.status = .FREE) (hev : st.event_id = e) (bs : List Nat)
    (hlen : 2 ≤ bs.length) (hnd : bs.Nodup)
    (hbs : ∀ b ∈ bs, ∃ bk, mapGet s.bookings b = some bk ∧
      bk.status = .booked ∧ bk.event_id = e) :
    Err.FailedAddSeat.isConflict = true ∧
    ∃ b1 rest, bs = b1 :: rest ∧
      (runSelects s bs sid).2 =
        none :: rest.map (fun _ => some Err.FailedAddSeat) ∧
      mapGet (runSelects s bs sid).1.seats sid =
        some { st with status := .RESERVED } ∧
      holdersIn (runSelects s bs sid).1.bookingSeats sid = [b1] := by
  refine ⟨rfl, ?_⟩
  obtain ⟨b1, rest, rfl⟩ : ∃ b1 rest, bs = b1 :: rest := by
    rcases bs with _ | ⟨b1, rest⟩
    · cases hlen
    · exact ⟨b1, rest, rfl⟩
  obtain ⟨bk1, hbk1, hbooked1, hev1⟩ := hbs b1 (List.mem_cons_self _ _)
  have hterm1 : ¬(bk1.status = .cancelled ∨ bk1.status = .confirmed) := by
    rintro (h' | h') <;> rw [hbooked1] at h' <;> cases h'
  have hok := selectSeat_eq_ok hbk1 hst hterm1 (by rw [hev, hev1]) hfree
  set s1 : Store := { s with
    seats := mapSet s.seats sid { st with status := .RESERVED },
    bookingSeats := bsAdd s.bookingSeats b1 sid,
    seatTimeouts := setAdd s.seatTimeouts sid } with hs1
  have hbookings1 : s1.bookings = s.bookings := rfl
  have hseat1 : mapGet s1.seats sid = some { st with status := .RESERVED } :=
    mapGet_mapSet_self _ _ _
  -- every later call fails with `FailedAddSeat` and changes nothing
  have hfail : ∀ b ∈ rest, selectSeat s1 b sid = .error .FailedAddSeat := by
    intro b hb
    obtain ⟨bk, hbk, hbooked, hevb⟩ := hbs b (List.mem_cons_of_mem _ hb)
    have hterm : ¬(bk.status = .cancelled ∨ bk.status = .confirmed) := by
      rintro (h' | h') <;> rw [hbooked] at h' <;> cases h'
    refine selectSeat_eq_not_free (show mapGet s1.bookings b = some bk from hbk)
      hseat1 hterm (by rw [hev, hevb]) ?_
    intro hc
    cases hc
  have hfold : ∀ (rs : List Nat) (acc : List (Option Err)),
      (∀ b ∈ rs, selectSeat s1 b sid = .error .FailedAddSeat) →
      rs.foldl (selectStep sid) (s1, acc) =
        (s1, acc ++ rs.map (fun _ => some Err.FailedAddSeat)) := by
    intro rs
    induction rs with
    | nil => intro acc _; simp
    | cons b rs' ih =>
      intro acc hall
      rw [List.foldl_cons]
      have hstep : selectStep sid (s1, acc) b =
          (s1, acc ++ [some Err.FailedAddSeat]) := by
        rw [selectStep, hall b (List.mem_cons_self _ _)]
      rw [hstep, ih (acc ++ [some Err.FailedAddSeat])
        (fun b' hb' => hall b' (List.mem_cons_of_mem _ hb')),
        List.append_assoc, List.singleton_append, List.map_cons]
  have hrun : runSelects s (b1 :: rest) sid =
      (s1, none :: rest.map (fun _ => some Err.FailedAddSeat)) := by
    rw [runSelects, List.foldl_cons]
    have hstep1 : selectStep sid (s, []) b1 = (s1, [none]) := by
      rw [selectStep]
      show (match selectSeat s b1 sid with
        | .ok (s', _) => (s', [none])
        | .error e => (s, [some e])) = (s1, [none])
      rw [hok]
    rw [hstep1, hfold rest [none] hfail, List.singleton_append]
  refine ⟨b1, rest, rfl, by rw [hrun], by rw [hrun]; exact hseat1, ?_⟩
  rw [hrun]
  show holdersIn (bsAdd s.bookingSeats b1 sid) sid = [b1]
  obtain ⟨l, hl⟩ := Option.isSome_iff_exists.1
    (by rw [← mapHas]; exact wf.booking_bs (b1, bk1) (mapGet_mem hbk1))
  rw [bsAdd, hl]
  exact holdersIn_mapSet_setAdd hl
    (wf.free_not_held (mapGet_mem hst) hfree) wf.bs_nodup

/-- C1 witness: two booked bookings race for seat 1 of the demo store; the
first succeeds, the second observes Conflict, and booking 1 is the unique
holder. -/
theorem selectSeat_mutual_exclusion_witness :
    (runSelects demo [1, 2] 1).2 = [none, some Err.FailedAddSeat] ∧
    mapGet (runSelects demo [1, 2] 1).1.seats 1 =
      some { id := 1, row := 1, number := 1, status := .RESERVED,
             price := "10.00", event_id := 1 } ∧
    holdersIn (runSelects demo [1, 2] 1).1.bookingSeats 1 = [1] := by
  have hbs : ∀ b ∈ [1, 2], ∃ bk, mapGet demo.bookings b = some bk ∧
      bk.status = .booked ∧ bk.event_id = 1 := by
    intro b hb
    rcases List.mem_cons.1 hb with rfl | hb'
    · exact ⟨{ id := 1, event_id := 1, status := .booked }, rfl, rfl, rfl⟩
    · rcases List.mem_cons.1 hb' with rfl | hb''
      · exact ⟨{ id := 2, event_id := 1, status := .booked }, rfl, rfl, rfl⟩
      · cases hb''
  obtain ⟨-, b1, rest, heq, hres, hseat, hhold⟩ :=
    selectSeat_mutual_exclusion WF_demo
      (show mapGet demo.seats 1 = some { id := 1, row := 1, number := 1, status := .FREE, price := "10.00", event_id := 1 } from rfl)
      rfl rfl [1, 2] (by decide) (by decide) hbs
  injection heq with h1 h2
  subst h1
  subst h2
  exact ⟨hres, hseat, hhold⟩

theorem releaseSeat_eq_ok {s : Store} {sid : Nat} {st : Seat}
    (hst : mapGet s.seats sid = some st) (hres : st.status = .RESERVED) :
    releaseSeat s sid =
      .ok (releaseSeatInternal s sid, "Seat successfully released") := by
  simp only [releaseSeat, hst]
  rw [if_neg (fun hc : st.status ≠ .RESERVED => hc hres)]

theorem releaseSeatInternal_eq {s : Store} {sid : Nat} {st : Seat}
    (hst : mapGet s.seats sid = some st) (hres : st.status = .RESERVED) :
    releaseSeatInternal s sid =
      { s with
        seats := mapSet s.seats sid { st with status := .FREE },
        bookingSeats := removeFromFirstHolder s.bookingSeats sid,
        seatTimeouts := setDelete s.seatTimeouts sid } := by
  simp only [releaseSeatInternal, hst, if_pos hres]

/-- C9.  Select/release round-trip: from a well-formed state, selecting a
FREE seat with a `booked` booking of its event and then releasing it
returns the seat to FREE, held by no booking and with no live timer, and
any non-terminal booking of the same event can then select it
successfully. -/
theorem select_release_roundtrip {s : Store} (wf : WF s) {b sid e : Nat}
    {bk : Booking} {st : Seat}
    (hbk : mapGet s.bookings b = some bk) (hbooked : bk.status = .booked)
    (hbe : bk.event_id = e) (hst : mapGet s.seats sid = some st)
    (hfree : st.status = .FREE) (hse : st.event_id = e) :
    ∃ s1 msg1, selectSeat s b sid = .ok (s1, msg1) ∧
    ∃ s2 msg2, releaseSeat s1 sid = .ok (s2, msg2) ∧
      s2.bookings = s.bookings ∧
      mapGet s2.seats sid = some st ∧
      holdersIn s2.bookingSeats sid = [] ∧
      sid ∉ s2.seatTimeouts ∧
      ∀ b' bk', mapGet s.bookings b' = some bk' →
        bk'.status ≠ .cancelled → bk'.status ≠ .confirmed →
        bk'.event_id = e →
        ∃ s3 msg3, selectSeat s2 b' sid = .ok (s3, msg3) := by
  have hterm : ¬(bk.status = .cancelled ∨ bk.status = .confirmed) := by
    rintro (h' | h') <;> rw [hbooked] at h' <;> cases h'
  have hok := selectSeat_eq_ok hbk hst hterm (by rw [hse, hbe]) hfree
  set s1 : Store := { s with
    seats := mapSet s.seats sid { st with status := .RESERVED },
    bookingSeats := bsAdd s.bookingSeats b sid,
    seatTimeouts := setAdd s.seatTimeouts sid } with hs1
  refine ⟨s1, _, hok, ?_⟩
  have hseat1 : mapGet s1.seats sid = some { st with status := .RESERVED } :=
    mapGet_mapSet_self _ _ _
  have hrel := releaseSeat_eq_ok hseat1 rfl
  set s2 : Store := releaseSeatInternal s1 sid with hs2
  have hs2eq : s2 = { s1 with
      seats := mapSet s1.seats sid { st with status := .FREE },
      bookingSeats := removeFromFirstHolder s1.bookingSeats sid,
      seatTimeouts := setDelete s1.seatTimeouts sid } := by
    rw [hs2, releaseSeatInternal_eq hseat1 rfl]
  have hstback : ({ st with status := .FREE } : Seat) = st := by
    rw [← hfree]
  have hholds1 : holdersIn s1.bookingSeats sid = [b] := by
    obtain ⟨l, hl⟩ := Option.isSome_iff_exists.1
      (by rw [← mapHas]; exact wf.booking_bs (b, bk) (mapGet_mem hbk))
    show holdersIn (bsAdd s.bookingSeats b sid) sid = [b]
    rw [bsAdd, hl]
    exact holdersIn_mapSet_setAdd hl
      (wf.free_not_held (mapGet_mem hst) hfree) wf.bs_nodup
  have hseat2 : mapGet s2.seats sid = some st := by
    rw [hs2eq]
    show mapGet (mapSet s1.seats sid { st with status := .FREE }) sid = some st
    rw [mapGet_mapSet_self, hstback]
  refine ⟨s2, _, hrel, by rw [hs2eq], hseat2, ?_, ?_, ?_⟩
  · rw [hs2eq]
    show holdersIn (removeFromFirstHolder s1.bookingSeats sid) sid = []
    rw [holdersIn_rffh_self, hholds1, List.tail_cons]
  · rw [hs2eq]
    intro hc
    exact (mem_setDelete.1 hc).2 rfl
  · intro b' bk' hbk' h1 h2 h3
    have hterm' : ¬(bk'.status = .cancelled ∨ bk'.status = .confirmed) := by
      rintro (h' | h')
      · exact h1 h'
      · exact h2 h'
    exact ⟨_, _, selectSeat_eq_ok (show mapGet s2.bookings b' = some bk'
      by rw [hs2eq]; exact hbk') hseat2 hterm' (by rw [hse, h3]) hfree⟩

/-- C9 witness: select then release seat 1 with booking 1 on the demo
store, then booking 2 selects it successfully. -/
theorem select_release_roundtrip_witness :
    ∃ s1 msg1, selectSeat demo 1 1 = .ok (s1, msg1) ∧
    ∃ s2 msg2, releaseSeat s1 1 = .ok (s2, msg2) ∧
      s2.bookings = demo.bookings ∧
      mapGet s2.seats 1 = some { id := 1, row := 1, number := 1, status := .FREE, price := "10.00", event_id := 1 } ∧
      holdersIn s2.bookingSeats 1 = [] ∧
      1 ∉ s2.seatTimeouts ∧
      ∃ s3 msg3, selectSeat s2 2 1 = .ok (s3, msg3) := by
  obtain ⟨s1, msg1, hsel, s2, msg2, hrel, hbooks, hseat, hhold, htimer, hnext⟩ :=
    select_release_roundtrip WF_demo
      (show mapGet demo.bookings 1 = some { id := 1, event_id := 1, status := .booked } from rfl)
      rfl rfl
      (show mapGet demo.seats 1 = some { id := 1, row := 1, number := 1, status := .FREE, price := "10.00", event_id := 1 } from rfl)
      rfl rfl
  refine ⟨s1, msg1, hsel, s2, msg2, hrel, hbooks, hseat, hhold, htimer, ?_⟩
  exact hnext 2 { id := 2, event_id := 1, status := .booked } rfl
    (by intro hc; cases hc) (by intro hc; cases hc) rfl

section CancelHelpers

theorem holdersIn_rffh_nil {bs : NMap (List Nat)} {sid : Nat} (x : Nat)
    (h : holdersIn bs sid = []) :
    holdersIn (removeFromFirstHolder bs x) sid = [] := by
  by_cases hx : sid = x
  · subst hx
    rw [holdersIn_rffh_self, h]
    rfl
  · rw [holdersIn_rffh_ne _ hx]
    exact h

theorem holdersIn_release_nil {t : Store} {sid : Nat} (x : Nat)
    (h : holdersIn t.bookingSeats sid = []) :
    holdersIn (releaseSeatInternal t x).bookingSeats sid = [] := by
  rw [releaseSeatInternal]
  split
  · split
    · exact holdersIn_rffh_nil x h
    · exact h
  · exact h

theorem foldl_release_holders_nil {R : List Nat} {t : Store} {sid : Nat}
    (h : holdersIn t.bookingSeats sid = []) :
    holdersIn ((R.foldl releaseSeatInternal t)).bookingSeats sid = [] := by
  induction R generalizing t with
  | nil => exact h
  | cons a R' ih =>
    rw [List.foldl_cons]
    exact ih (holdersIn_release_nil a h)

theorem release_timer_not_mem {t : Store} {sid : Nat} (x : Nat)
    (h : sid ∉ t.seatTimeouts) :
    sid ∉ (releaseSeatInternal t x).seatTimeouts := by
  rw [releaseSeatInternal]
  split
  · split
    · intro hc
      exact h (mem_setDelete.1 hc).1
    · exact h
  · exact h

theorem foldl_release_timer_not_mem {R : List Nat} {t : Store} {sid : Nat}
    (h : sid ∉ t.seatTimeouts) :
    sid ∉ (R.foldl releaseSeatInternal t).seatTimeouts := by
  induction R generalizing t with
  | nil => exact h
  | cons a R' ih =>
    rw [List.foldl_cons]
    exact ih (release_timer_not_mem a h)

/-- The seat-release loop of `cancelBooking`/`failPayment`: folding
`releaseSeatInternal` over RESERVED seats all held by booking `b` frees
each of them, removes them from `b`'s held set, cancels their timers and
leaves the bookings map alone. -/
theorem cancel_fold_release {R : List Nat} {t : Store} {b : Nat}
    {cur : List Nat} (wf : WF t) (hget : mapGet t.bookingSeats b = some cur)
    (hnd : R.Nodup) (hmem : ∀ sid ∈ R, sid ∈ cur)
    (hres : ∀ sid ∈ R, ∃ st, mapGet t.seats sid = some st ∧
      st.status = .RESERVED) :
    mapGet (R.foldl releaseSeatInternal t).bookingSeats b =
      some (R.foldl setDelete cur) ∧
    (R.foldl releaseSeatInternal t).bookings = t.bookings ∧
    ∀ sid ∈ R, (∃ st, mapGet t.seats sid = some st ∧
        mapGet (R.foldl releaseSeatInternal t).seats sid =
          some { st with status := .FREE }) ∧
      holdersIn (R.foldl releaseSeatInternal t).bookingSeats sid = [] ∧
      sid ∉ (R.foldl releaseSeatInternal t).seatTimeouts := by
  induction R generalizing t cur with
  | nil => exact ⟨hget, rfl, fun sid hsid => absurd hsid (List.not_mem_nil _)⟩
  | cons a R' ih =>
    simp only [List.nodup_cons] at hnd
    obtain ⟨sta, hsta, haRES⟩ := hres a (List.mem_cons_self _ _)
    have ha : a ∈ cur := hmem a (List.mem_cons_self _ _)
    have hhold : holdersIn t.bookingSeats a = [b] :=
      wf.unique_holder (mapGet_mem hget) ha
    have heq := releaseSeatInternal_eq hsta haRES
    have wf1 : WF (releaseSeatInternal t a) := WF_releaseSeatInternal wf a
    have hget1 : mapGet (releaseSeatInternal t a).bookingSeats b =
        some (setDelete cur a) := by
      rw [heq]
      exact mapGet_rffh_first hhold hget wf.bs_nodup
    have hmem1 : ∀ sid ∈ R', sid ∈ setDelete cur a := by
      intro sid hsid
      exact mem_setDelete.2 ⟨hmem sid (List.mem_cons_of_mem _ hsid),
        fun hc => hnd.1 (hc ▸ hsid)⟩
    have hseats1 : ∀ sid ∈ R',
        mapGet (releaseSeatInternal t a).seats sid = mapGet t.seats sid := by
      intro sid hsid
      exact releaseSeatInternal_seats_ne (fun hc => hnd.1 (hc ▸ hsid))
    have hres1 : ∀ sid ∈ R', ∃ st,
        mapGet (releaseSeatInternal t a).seats sid = some st ∧
        st.status = .RESERVED := by
      intro sid hsid
      obtain ⟨st, hst, hstat⟩ := hres sid (List.mem_cons_of_mem _ hsid)
      exact ⟨st, by rw [hseats1 sid hsid]; exact hst, hstat⟩
    obtain ⟨ihget, ihbook, ihall⟩ := ih wf1 hget1 hnd.2 hmem1 hres1
    rw [List.foldl_cons]
    refine ⟨by rw [ihget, List.foldl_cons], by rw [ihbook, heq], ?_⟩
    intro sid hsid
    rcases List.mem_cons.1 hsid with rfl | hsid'
    · refine ⟨⟨sta, hsta, ?_⟩, ?_, ?_⟩
      · rw [foldl_release_seats_ne hnd.1, heq]
        show mapGet (mapSet t.seats sid { sta with status := .FREE }) sid = _
        rw [mapGet_mapSet_self]
      · apply foldl_release_holders_nil
        rw [heq]
        show holdersIn (removeFromFirstHolder t.bookingSeats sid) sid = []
        rw [holdersIn_rffh_self, hhold, List.tail_cons]
      · apply foldl_release_timer_not_mem
        rw [heq]
        intro hc
        exact (mem_setDelete.1 hc).2 rfl
    · obtain ⟨⟨st, hst, hfinal⟩, hh, ht⟩ := ihall sid hsid'
      refine ⟨⟨st, ?_, hfinal⟩, hh, ht⟩
      rw [← hseats1 sid hsid']
      exact hst

theorem cancelBooking_eq_none {s : Store} {b : Nat}
    (h : mapGet s.bookings b = none) :
    cancelBooking s b = .error .BookingNotFound := by
  rw [cancelBooking, h]

theorem cancelBooking_eq_confirmed {s : Store} {b : Nat} {bk : Booking}
    (hbk : mapGet s.bookings b = some bk) (hc : bk.status = .confirmed) :
    cancelBooking s b = .ok (s, "Booking successfully cancelled") := by
  simp only [cancelBooking, hbk, if_pos hc]

theorem cancelBooking_eq_acts {s : Store} {b : Nat} {bk : Booking}
    (hbk : mapGet s.bookings b = some bk) (hnc : bk.status ≠ .confirmed) :
    cancelBooking s b = .ok
      (((mapGet s.bookingSeats b).getD []).foldl releaseSeatInternal
        { s with bookings := mapSet s.bookings b { bk with status := .cancelled } },
       "Booking successfully cancelled") := by
  simp only [cancelBooking, hbk, if_neg hnc]

end CancelHelpers

/-- C4.  `cancelBooking` contract: NotFound when the booking is unknown; a
success-reporting no-op on a `confirmed` booking; otherwise the booking
becomes `cancelled` and every held (RESERVED) seat becomes FREE, leaves
every held set and loses its timer, and repeating `cancelBooking` succeeds
with no further change. -/
theorem cancelBooking_contract {s : Store} (wf : WF s) (b : Nat) :
    (mapGet s.bookings b = none →
      cancelBooking s b = .error .BookingNotFound ∧
        Err.BookingNotFound.isNotFound = true) ∧
    (∀ bk, mapGet s.bookings b = some bk → bk.status = .confirmed →
      cancelBooking s b = .ok (s, "Booking successfully cancelled")) ∧
    (∀ bk, mapGet s.bookings b = some bk → bk.status ≠ .confirmed →
      ∃ s', cancelBooking s b = .ok (s', "Booking successfully cancelled") ∧
        mapGet s'.bookings b = some { bk with status := .cancelled } ∧
        mapGet s'.bookingSeats b = some [] ∧
        (∀ sid ∈ (mapGet s.bookingSeats b).getD [],
          (∃ st, mapGet s.seats sid = some st ∧
            mapGet s'.seats sid = some { st with status := .FREE }) ∧
          holdersIn s'.bookingSeats sid = [] ∧
          sid ∉ s'.seatTimeouts) ∧
        cancelBooking s' b = .ok (s', "Booking successfully cancelled")) := by
  refine ⟨fun h => ⟨cancelBooking_eq_none h, rfl⟩,
    fun bk hbk hc => cancelBooking_eq_confirmed hbk hc, ?_⟩
  intro bk hbk hnc
  obtain ⟨l, hl⟩ := Option.isSome_iff_exists.1
    (by rw [← mapHas]; exact wf.booking_bs (b, bk) (mapGet_mem hbk))
  set s1 : Store :=
    { s with bookings := mapSet s.bookings b { bk with status := .cancelled } }
    with hs1
  have wf1 : WF s1 := WF_setBookingStatus wf hbk
    (by intro hc'; cases hc') (Or.inr hnc)
  have hl1 : mapGet s1.bookingSeats b = some l := hl
  have hlnd : l.Nodup := wf.held_nodup (b, l) (mapGet_mem hl)
  have hres : ∀ sid ∈ l, ∃ st, mapGet s1.seats sid = some st ∧
      st.status = .RESERVED := by
    intro sid hsid
    obtain ⟨st, hst⟩ := Option.isSome_iff_exists.1
      (by rw [← mapHas]; exact wf.held_seat (b, l) (mapGet_mem hl) sid hsid)
    refine ⟨st, hst, ?_⟩
    have hnf := wf.held_status (b, l) (mapGet_mem hl) sid hsid st hst
    have hns : st.status ≠ .SOLD := by
      intro hsold
      have := wf.sold_confirmed (b, l) (mapGet_mem hl) sid hsid st hst hsold
        bk (by rw [Option.mem_def]; exact hbk)
      exact hnc this
    cases hq : st.status
    · exact absurd hq hnf
    · rfl
    · exact absurd hq hns
  obtain ⟨hget', hbook', hall'⟩ :=
    cancel_fold_release wf1 hl1 hlnd (fun _ h => h) hres
  set s' : Store := l.foldl releaseSeatInternal s1 with hs'
  have hok : cancelBooking s b =
      .ok (s', "Booking successfully cancelled") := by
    rw [cancelBooking_eq_acts hbk hnc]
    show Except.ok ((((mapGet s.bookingSeats b).getD []).foldl
      releaseSeatInternal s1), _) = _
    rw [hl]
    rfl
  have hWFs' : WF s' := WF_foldl_release wf1 l
  have hbooks' : mapGet s'.bookings b = some { bk with status := .cancelled } := by
    rw [hs', hbook']
    show mapGet (mapSet s.bookings b { bk with status := .cancelled }) b = _
    rw [mapGet_mapSet_self]
  have hempty : mapGet s'.bookingSeats b = some [] := by
    rw [hs', hget']
    have : l.foldl setDelete l = [] := by
      rw [foldl_setDelete_eq_filter]
      rw [List.filter_eq_nil_iff]
      intro a ha
      simp [ha]
    rw [this]
  refine ⟨s', hok, hbooks', hempty, ?_, ?_⟩
  · intro sid hsid
    have hsid' : sid ∈ l := by
      rw [hl] at hsid
      exact hsid
    obtain ⟨⟨st, hst, hfinal⟩, hh, ht⟩ := hall' sid hsid'
    exact ⟨⟨st, hst, hfinal⟩, hh, ht⟩
  · have heta : mapSet s'.bookings b
        { { bk with status := BookingStatus.cancelled } with
          status := BookingStatus.cancelled } = s'.bookings := by
      exact mapSet_self hbooks' hWFs'.bookings_nodup
    rw [cancelBooking_eq_acts hbooks' (by intro hc'; cases hc'), hempty]
    show Except.ok ((([] : List Nat).foldl releaseSeatInternal _), _) = _
    rw [List.foldl_nil]
    show Except.ok (({ s' with bookings := mapSet s'.bookings b _ } : Store), _) = _
    rw [heta]

/-- C4 witness: cancelling an unknown booking on the initial store reports
NotFound, and cancelling a booking holding one RESERVED seat frees it. -/
theorem cancelBooking_contract_witness :
    (cancelBooking Store.init 1 = .error .BookingNotFound ∧
      Err.BookingNotFound.isNotFound = true) ∧
    ∃ s', cancelBooking c3store 1 =
        .ok (s', "Booking successfully cancelled") ∧
      mapGet s'.bookings 1 =
        some { id := 1, event_id := 1, status := .cancelled } ∧
      mapGet s'.bookingSeats 1 = some [] ∧
      ((∃ st, mapGet c3store.seats 1 = some st ∧
        mapGet s'.seats 1 = some { st with status := .FREE }) ∧
        holdersIn s'.bookingSeats 1 = [] ∧ 1 ∉ s'.seatTimeouts) ∧
      cancelBooking s' 1 = .ok (s', "Booking successfully cancelled") := by
  have hWFc3 : WF c3store := by constructor <;> decide
  refine ⟨(cancelBooking_contract WF_init 1).1 rfl, ?_⟩
  obtain ⟨s', hok, h1, h2, h3, h4⟩ :=
    (cancelBooking_contract hWFc3 1).2.2
      { id := 1, event_id := 1, status := .payment_initiated } rfl
      (by intro hc; cases hc)
  exact ⟨s', hok, h1, h2, h3 1 (by decide), h4⟩

section TimerCounterexample

set_option maxRecDepth 4000

theorem applyOp_selectSeat_eq {s s2 : Store} {b sid : Nat} {m : String}
    (h : selectSeat s b sid = .ok (s2, m)) :
    applyOp s (.selectSeat b sid) = s2 := by
  simp only [applyOp]
  rw [h]

theorem applyOp_initiatePayment_eq {s s2 : Store} {b : Nat} {m : String}
    (h : initiatePayment s b = .ok (s2, m)) :
    applyOp s (.initiatePayment b) = s2 := by
  simp only [applyOp]
  rw [h]

theorem initiatePayment_eq_ok {s : Store} {b : Nat} {bk : Booking}
    (hbk : mapGet s.bookings b = some bk) (hbooked : bk.status = .booked) :
    initiatePayment s b = .ok ({ s with
        bookings := mapSet s.bookings b { bk with status := .payment_initiated },
        seatTimeouts := ((mapGet s.bookingSeats b).getD []).foldl setDelete
          s.seatTimeouts },
      "http://localhost:3000/payment?booking_id=" ++ toString b) := by
  simp only [initiatePayment, hbk]
  rw [if_neg (fun hc : bk.status ≠ .booked => hc hbooked)]

/-- The trace: create an event, create a booking, select seat 1, initiate
payment (cancelling seat 1's timer), then select seat 2 while the booking
is already `payment_initiated`. -/
def c5sA : Store := applyOp Store.init (.createEvent "Concert" false)

def c5sB : Store := applyOp c5sA (.createBooking 1)

def c5sC : Store := applyOp c5sB (.selectSeat 1 1)

def c5sD : Store := applyOp c5sC (.initiatePayment 1)

def c5state : Store := applyOp c5sD (.selectSeat 1 2)

def c5seat1 : Seat :=
  { id := 1, row := 1, number := 1, status := .FREE, price := "10.00",
    event_id := 1 }

def c5seat2 : Seat :=
  { id := 2, row := 1, number := 2, status := .FREE, price := "10.00",
    event_id := 1 }

theorem c5sA_seats : c5sA.seats = genSeats 1 1 10 100 := by
  show (createEvent Store.init "Concert" false).1.seats = _
  rw [createEvent_seats "Concert" false (fun p hp => absurd hp
    (List.not_mem_nil p))]
  rw [show (if isLargeEventTitle "Concert" then 1000 else 10) = 10 from
    if_neg (by decide)]
  rfl

theorem c5sA_seat1 : mapGet c5sA.seats 1 = some c5seat1 := by
  rw [c5sA_seats]
  rfl

theorem c5sA_seat2 : mapGet c5sA.seats 2 = some c5seat2 := by
  rw [c5sA_seats]
  rfl

theorem c5sB_eq : c5sB = { c5sA with
    bookings := [(1, { id := 1, event_id := 1, status := .booked })],
    bookingSeats := [(1, [])], nextBookingId := 2 } := by
  show (match createBooking c5sA 1 with
    | .ok (s', _) => s'
    | .error _ => c5sA) = _
  rw [show createBooking c5sA 1 = .ok ({ c5sA with
      bookings := [(1, { id := 1, event_id := 1, status := .booked })],
      bookingSeats := [(1, [])], nextBookingId := 2 }, 1) from by
    rw [createBooking, if_pos (by decide : mapHas c5sA.events 1 = true)]
    rfl]

theorem c5sB_seats : c5sB.seats = c5sA.seats := by
  rw [c5sB_eq]

theorem c5sC_eq : c5sC = { c5sB with
    seats := mapSet c5sB.seats 1 { c5seat1 with status := .RESERVED },
    bookingSeats := [(1, [1])], seatTimeouts := [1] } := by
  have hbk : mapGet c5sB.bookings 1 =
      some { id := 1, event_id := 1, status := .booked } := by
    rw [c5sB_eq]
    rfl
  have hst : mapGet c5sB.seats 1 = some c5seat1 := by
    rw [c5sB_seats]
    exact c5sA_seat1
  have hok := selectSeat_eq_ok hbk hst (by rintro (h | h) <;> cases h)
    rfl rfl
  have hbs : bsAdd c5sB.bookingSeats 1 1 = [(1, [1])] := by
    rw [c5sB_eq]
    rfl
  have hti : setAdd c5sB.seatTimeouts 1 = [1] := by
    rw [c5sB_eq]
    rfl
  rw [hbs, hti] at hok
  exact applyOp_selectSeat_eq hok

theorem c5sC_bookings : c5sC.bookings =
    [(1, { id := 1, event_id := 1, status := .booked })] := by
  rw [c5sC_eq, c5sB_eq]

theorem c5sC_seats : c5sC.seats =
    mapSet c5sB.seats 1 { c5seat1 with status := .RESERVED } := by
  rw [c5sC_eq]

theorem c5sC_seat2 : mapGet c5sC.seats 2 = some c5seat2 := by
  rw [c5sC_seats, mapGet_mapSet_ne _ _ (by decide : (2 : Nat) ≠ 1),
    c5sB_seats]
  exact c5sA_seat2

theorem c5sD_eq : c5sD = { c5sC with
    bookings := [(1, { id := 1, event_id := 1, status := .payment_initiated })],
    seatTimeouts := [] } := by
  have hbk : mapGet c5sC.bookings 1 =
      some { id := 1, event_id := 1, status := .booked } := by
    rw [c5sC_bookings]
    rfl
  have hbs2 : mapGet c5sC.bookingSeats 1 = some [1] := by
    rw [show c5sC.bookingSeats = [(1, [1])] from by rw [c5sC_eq]]
    rfl
  have hto : c5sC.seatTimeouts = [1] := by
    rw [c5sC_eq]
  show applyOp c5sC (.initiatePayment 1) = _
  rw [applyOp_initiatePayment_eq (initiatePayment_eq_ok hbk rfl),
    c5sC_bookings, hbs2, hto]
  rfl

theorem c5sD_seats : c5sD.seats =
    mapSet c5sB.seats 1 { c5seat1 with status := .RESERVED } := by
  rw [c5sD_eq, c5sC_eq]

theorem c5state_eq : c5state = { c5sD with
    seats := mapSet c5sD.seats 2 { c5seat2 with status := .RESERVED },
    bookingSeats := [(1, [1, 2])], seatTimeouts := [2] } := by
  have hbk : mapGet c5sD.bookings 1 =
      some { id := 1, event_id := 1, status := .payment_initiated } := by
    rw [c5sD_eq]
    rfl
  have hst : mapGet c5sD.seats 2 = some c5seat2 := by
    rw [c5sD_seats, mapGet_mapSet_ne _ _ (by decide : (2 : Nat) ≠ 1),
      c5sB_seats]
    exact c5sA_seat2
  have hok := selectSeat_eq_ok hbk hst (by rintro (h | h) <;> cases h)
    rfl rfl
  have hbs : bsAdd c5sD.bookingSeats 1 2 = [(1, [1, 2])] := by
    rw [bsAdd, show mapGet c5sD.bookingSeats 1 = some [1] from by
      rw [c5sD_eq, c5sC_eq]
      rfl]
    rw [show c5sD.bookingSeats = [(1, [1])] from by rw [c5sD_eq, c5sC_eq]]
    rfl
  have hti : setAdd c5sD.seatTimeouts 2 = [2] := by
    rw [show c5sD.seatTimeouts = [] from by rw [c5sD_eq]]
    rfl
  rw [hbs, hti] at hok
  exact applyOp_selectSeat_eq hok

end TimerCounterexample

/-- C5 counterexample: the claimed reservation-timer invariant is false.
In the reachable state built by createEvent; createBooking; selectSeat of
seat 1; initiatePayment; selectSeat of seat 2, the seat 2 is RESERVED and
held by booking 1, booking 1 is `payment_initiated`, and seat 2 still has
a live reservation timer — the claim says no RESERVED seat of a
`payment_initiated` booking has one. -/
theorem timer_invariant_counterexample :
    Reachable c5state ∧
    2 ∈ c5state.seatTimeouts ∧
    mapGet c5state.seats 2 = some { c5seat2 with status := .RESERVED } ∧
    (∃ held, mapGet c5state.bookingSeats 1 = some held ∧ (2 : Nat) ∈ held) ∧
    mapGet c5state.bookings 1 =
      some { id := 1, event_id := 1, status := .payment_initiated } := by
  refine ⟨?_, ?_, ?_, ?_, ?_⟩
  · exact Reachable.step _ _ (Reachable.step _ _ (Reachable.step _ _
      (Reachable.step _ _ (Reachable.step _ _ Reachable.init))))
  · rw [c5state_eq]
    exact List.mem_singleton.2 rfl
  · rw [show c5state.seats = mapSet c5sD.seats 2
      { c5seat2 with status := .RESERVED } from by rw [c5state_eq],
      mapGet_mapSet_self]
  · refine ⟨[1, 2], ?_, by decide⟩
    rw [c5state_eq]
    rfl
  · rw [c5state_eq, c5sD_eq]
    rfl

/-- C5 (amended).  Reservation-timer invariant as the code enforces it: a
live timer always belongs to an existing, non-FREE seat, and every RESERVED
seat whose owning booking is still `booked` has a live timer.  (A seat
selected while its booking is already `payment_initiated` also carries a
live timer, so the original "timer iff booking not yet in
payment_initiated" direction fails; see the counterexample.) -/
theorem reservation_timer_invariant_amended {s : Store} (h : Reachable s) :
    (∀ sid ∈ s.seatTimeouts, mapHas s.seats sid = true) ∧
    (∀ p ∈ s.seats, (p : Nat × Seat).2.status = .FREE →
      p.1 ∉ s.seatTimeouts) ∧
    (∀ p ∈ s.seats, (p : Nat × Seat).2.status = .RESERVED →
      ∀ q ∈ s.bookingSeats, p.1 ∈ q.2 →
        ∀ bk ∈ mapGet s.bookings q.1, bk.status = .booked →
          p.1 ∈ s.seatTimeouts) := by
  have wf := h.wf
  refine ⟨wf.timer_seat, ?_, wf.reserved_booked_timer⟩
  intro p hp hfree hc
  have hget : mapGet s.seats p.1 = some p.2 :=
    mapGet_of_mem_nodup hp wf.seats_nodup
  exact wf.timer_not_free p.1 hc p.2 hget hfree

/-- C5 witness: the amended invariant at the initial store. -/
theorem reservation_timer_invariant_amended_witness :
    (∀ sid ∈ Store.init.seatTimeouts, mapHas Store.init.seats sid = true) ∧
    (∀ p ∈ Store.init.seats, (p : Nat × Seat).2.status = .FREE →
      p.1 ∉ Store.init.seatTimeouts) ∧
    (∀ p ∈ Store.init.seats, (p : Nat × Seat).2.status = .RESERVED →
      ∀ q ∈ Store.init.bookingSeats, p.1 ∈ q.2 →
        ∀ bk ∈ mapGet Store.init.bookings q.1, bk.status = .booked →
          p.1 ∈ Store.init.seatTimeouts) :=
  reservation_timer_invariant_amended Reachable.init

/-- C7 witness: the callbacks on a store with one booking in each relevant
situation. -/
theorem payment_callbacks_never_raise_witness :
    (confirmPayment Store.init 1).2 = "OK" ∧
      (failPayment Store.init 1).2 = "OK" ∧
      (confirmPayment Store.init 1).1 = Store.init ∧
      (failPayment Store.init 1).1 = Store.init := by
  obtain ⟨h1, h2, h3, -, -⟩ := payment_callbacks_never_raise Store.init 1
  obtain ⟨h4, h5⟩ := h3 (by rfl)
  exact ⟨h1, h2, h4, h5⟩

end Billetter
